import Mathlib

/-!
Shallow embedding of `src/gallery/app.js` (pig0712/gallery).

The persisted document (`state` in the source) is a JSON object
`{ users, usernameIndex, userData }` where every map is a JS object with
string keys.  JS objects are modelled as association lists with string
keys, preserving insertion order (`aset` replaces in place or appends,
matching JS property assignment; `aerase` models `delete`).

User partitions are created lazily and normalized by `ensureUserData`:
missing fields are filled in with `||=`, which overwrites falsy values.
This is modelled with `Option`-valued fields (`none` = property absent)
and a `norm` function using `orElseStr` (JS `x || d` on strings, which
also replaces the empty string).

`nowISO()` timestamps, the random ids from `safeId`, the random salt and
the PBKDF2 derivation `deriveHashB64` are impure; each operation takes
them as explicit parameters (the hash as a deterministic function
`H : password → salt → hash`).  The UI layer (DOM, toasts, modals) is
out of scope; operations return a tagged result in place of the
`return false` / toast branches, with one tag per distinct code path.
-/

namespace Gal

/-- JS `x || d` for a possibly-missing string property: `none` (absent)
and the empty string are falsy and replaced by the default. -/
def orElseStr (o : Option String) (d : String) : String :=
  match o with
  | none => d
  | some s => if s = "" then d else s

/-- JS truthiness of a possibly-missing string property. -/
def truthy (o : Option String) : Bool :=
  match o with
  | none => false
  | some s => s ≠ ""

/-- The whitespace class of JS `/\s/` and `String.prototype.trim`, by
code point. -/
def jsWhitespace (c : Char) : Bool :=
  [9, 10, 11, 12, 13, 32, 160, 0x1680, 0x2000, 0x2001, 0x2002, 0x2003, 0x2004, 0x2005,
    0x2006, 0x2007, 0x2008, 0x2009, 0x200A, 0x2028, 0x2029, 0x202F, 0x205F,
    0x3000, 0xFEFF].contains c.toNat

/-- JS `String.prototype.trim`: strip leading and trailing whitespace. -/
def jsTrim (s : String) : String :=
  String.mk (((s.data.dropWhile jsWhitespace).reverse.dropWhile jsWhitespace).reverse)

/-- One hex digit, as in the regex `[0-9a-fA-F]` of `normalizeHex`. -/
def isHexDig (c : Char) : Bool :=
  (48 ≤ c.toNat && c.toNat ≤ 57) || (97 ≤ c.toNat && c.toNat ≤ 102)
    || (65 ≤ c.toNat && c.toNat ≤ 70)

/-- ASCII upper-casing of one character (`toUpperCase` restricted to
the hex digits it is applied to). -/
def hexUpperChar (c : Char) : Char :=
  if 97 ≤ c.toNat && c.toNat ≤ 122 then Char.ofNat (c.toNat - 32) else c

/-- `normalizeHex` from the source: accept `#?[0-9a-fA-F]{6}`, return it
upper-cased with a leading `#`, otherwise the default accent color. -/
def normalizeHex (hex : String) : String :=
  let core : List Char :=
    match (jsTrim hex).data with
    | '#' :: rest => rest
    | l => l
  if core.length == 6 && core.all isHexDig then String.mk ('#' :: core.map hexUpperChar)
  else "#6EE7FF"

/-- `isValidUsername` from the source: nonempty (truthy), length 2–20,
no whitespace character. -/
def isValidUsername (u : String) : Bool :=
  if u = "" then false
  else if u.length < 2 || u.length > 20 then false
  else if u.data.any jsWhitespace then false
  else true

/-! ### JS objects as association lists -/

/-- Property read `obj[k]` on a string-keyed JS object. -/
def alookup {β : Type} (k : String) : List (String × β) → Option β
  | [] => none
  | e :: l => if e.1 = k then some e.2 else alookup k l

/-- Property write `obj[k] = v`: replace in place, or append (JS keeps
insertion order for new string keys). -/
def aset {β : Type} (k : String) (v : β) : List (String × β) → List (String × β)
  | [] => [(k, v)]
  | e :: l => if e.1 = k then (k, v) :: l else e :: aset k v l

/-- Property removal `delete obj[k]`. -/
def aerase {β : Type} (k : String) : List (String × β) → List (String × β)
  | [] => []
  | e :: l => if e.1 = k then l else e :: aerase k l

/-- `Object.keys(obj)`. -/
def keys {β : Type} (l : List (String × β)) : List String := l.map Prod.fst

/-! ### Data model -/

/-- Registry entry stored in `state.users`. -/
structure User where
  userId : String
  username : String
  saltB64 : String
  hashB64 : String
  createdAt : String
  role : String
deriving DecidableEq, Repr

structure Gallery where
  id : String
  title : String
  desc : String
  icon : String
  color : String
  pinned : Bool
  createdAt : String
  updatedAt : String
  deletedAt : Option String
deriving DecidableEq, Repr

structure Post where
  id : String
  /-- `none` models a post predating the `galleryOwnerId` field
  (backward-compatibility rule in `listPostsInGallery`). -/
  galleryOwnerId : Option String
  galleryId : String
  title : String
  content : String
  createdAt : String
  updatedAt : String
  deletedAt : Option String
  deletedByGallery : Bool
deriving DecidableEq, Repr

structure Comment where
  id : String
  postId : String
  text : String
  createdAt : String
  updatedAt : String
  deletedAt : Option String
deriving DecidableEq, Repr

/-- Per-user display settings; `none` models an absent property
(filled in by `ensureUserData`). -/
structure RawSettings where
  theme : Option String
  accent : Option String
  viewMode : Option String
deriving DecidableEq, Repr

/-- A user partition as stored: any of the four maps may be absent
until `ensureUserData` fills it in.  (The reserved `media` map is
always empty and is omitted.) -/
structure RawPartition where
  settings : Option RawSettings
  galleries : Option (List (String × Gallery))
  posts : Option (List (String × Post))
  comments : Option (List (String × Comment))
deriving DecidableEq, Repr

/-- The whole persisted document. -/
structure St where
  users : List (String × User)
  usernameIndex : List (String × String)
  userData : List (String × RawPartition)
deriving DecidableEq, Repr

def RawSettings.norm (s : RawSettings) : RawSettings :=
  { theme := some (orElseStr s.theme "dark")
    accent := some (orElseStr s.accent "#6EE7FF")
    viewMode := some (orElseStr s.viewMode "grid") }

def emptySettings : RawSettings := ⟨none, none, none⟩

def RawPartition.galleriesD (p : RawPartition) : List (String × Gallery) :=
  p.galleries.getD []

def RawPartition.postsD (p : RawPartition) : List (String × Post) :=
  p.posts.getD []

def RawPartition.commentsD (p : RawPartition) : List (String × Comment) :=
  p.comments.getD []

/-- The field-by-field normalization performed by `ensureUserData`. -/
def RawPartition.norm (p : RawPartition) : RawPartition :=
  { settings := some (p.settings.getD emptySettings).norm
    galleries := some p.galleriesD
    posts := some p.postsD
    comments := some p.commentsD }

def rawEmpty : RawPartition := ⟨none, none, none, none⟩

/-- The partition `ensureUserData` creates for a previously-unknown id. -/
def defaultPartition : RawPartition := rawEmpty.norm

/-- Read a user's partition as every operation sees it after
`ensureUserData`: absent partitions read as the default, and missing
fields read as their defaults. -/
def getPart (st : St) (uid : String) : RawPartition :=
  ((alookup uid st.userData).getD rawEmpty).norm

/-- `ensureUserData` from the source: create the partition if absent,
then fill in missing fields. -/
def ensureUserData (st : St) (uid : String) : St :=
  { st with userData := aset uid ((alookup uid st.userData).getD rawEmpty).norm st.userData }

/-- State effect of a listing loop that runs `ensureUserData` on every
key of `state.userData` (JS object keys are unique, so the sequential
ensures amount to normalizing every stored partition). -/
def ensureAll (st : St) : St :=
  { st with userData := st.userData.map fun e => (e.1, e.2.norm) }

def lookupGallery (st : St) (o gid : String) : Option Gallery :=
  alookup gid (getPart st o).galleriesD

def lookupPost (st : St) (aid pid : String) : Option Post :=
  alookup pid (getPart st aid).postsD

def lookupComment (st : St) (aid cid : String) : Option Comment :=
  alookup cid (getPart st aid).commentsD

/-- In-place write `ud.galleries[gid] = g` on the (ensured) partition. -/
def setGalleryIn (st : St) (o gid : String) (g : Gallery) : St :=
  let p := getPart st o
  { st with userData := aset o { p with galleries := some (aset gid g p.galleriesD) } st.userData }

/-- In-place write `ud.posts[pid] = p`. -/
def setPostIn (st : St) (aid pid : String) (p : Post) : St :=
  let q := getPart st aid
  { st with userData := aset aid { q with posts := some (aset pid p q.postsD) } st.userData }

/-- In-place write `ud.comments[cid] = c`. -/
def setCommentIn (st : St) (aid cid : String) (c : Comment) : St :=
  let q := getPart st aid
  { st with userData := aset aid { q with comments := some (aset cid c q.commentsD) } st.userData }

/-- Backward-compat owner resolution from `listPostsInGallery`:
`p.galleryOwnerId || authorId`. -/
def resolvedOwner (p : Post) (aid : String) : String :=
  match p.galleryOwnerId with
  | none => aid
  | some s => if s = "" then aid else s

/-- The match predicate of `listPostsInGallery` (before the
`includeDeleted` filter): resolved owner and gallery id both match. -/
def postMatches (aid gOwner gid : String) (p : Post) : Bool :=
  resolvedOwner p aid == gOwner && p.galleryId == gid

/-- Cascade mutation loops (`deleteGallerySoft`, `restoreGallery`): the
entries returned by `listPostsInGallery` are live references, so
mutating them rewrites each partition's posts in place; the enclosing
scan has already normalized every partition. -/
def mapAllPosts (f : String → Post → Post) (st : St) : St :=
  { st with userData := st.userData.map fun e =>
      (e.1, { e.2.norm with posts := some (e.2.norm.postsD.map fun kv => (kv.1, f e.1 kv.2)) }) }

/-! ### Query layer: cross-user resolution and listing

`resolveGalleryCtx`/`resolvePostCtx` are not pure reads: the hint path
and every scan step run `ensureUserData`, so they thread the state. -/

/-- The `for (ownerId of Object.keys(state.userData))` scan of
`resolveGalleryCtx`, with its `ensureUserData` side effect per step and
early exit at the first hit. -/
def scanGalleries (gid : String) : List String → St → Option (String × Gallery) × St
  | [], st => (none, st)
  | k :: ks, st =>
    let st1 := ensureUserData st k
    match alookup gid (getPart st1 k).galleriesD with
    | some g => (some (k, g), st1)
    | none => scanGalleries gid ks st1

/-- `resolveGalleryCtx(gid, ownerHint)`: falsy gid resolves to nothing;
a truthy hint is tried first (creating that partition if needed), then
all partitions are scanned in key order. -/
def resolveGalleryCtx (st : St) (gid : String) (ownerHint : Option String) :
    Option (String × Gallery) × St :=
  if gid = "" then (none, st)
  else
    match ownerHint with
    | some h =>
      if h = "" then scanGalleries gid (keys st.userData) st
      else
        let st1 := ensureUserData st h
        match alookup gid (getPart st1 h).galleriesD with
        | some g => (some (h, g), st1)
        | none => scanGalleries gid (keys st1.userData) st1
    | none => scanGalleries gid (keys st.userData) st

/-- The scan of `resolvePostCtx`. -/
def scanPosts (pid : String) : List String → St → Option (String × Post) × St
  | [], st => (none, st)
  | k :: ks, st =>
    let st1 := ensureUserData st k
    match alookup pid (getPart st1 k).postsD with
    | some p => (some (k, p), st1)
    | none => scanPosts pid ks st1

/-- `resolvePostCtx(pid, authorHint)`. -/
def resolvePostCtx (st : St) (pid : String) (authorHint : Option String) :
    Option (String × Post) × St :=
  if pid = "" then (none, st)
  else
    match authorHint with
    | some h =>
      if h = "" then scanPosts pid (keys st.userData) st
      else
        let st1 := ensureUserData st h
        match alookup pid (getPart st1 h).postsD with
        | some p => (some (h, p), st1)
        | none => scanPosts pid (keys st1.userData) st1
    | none => scanPosts pid (keys st.userData) st

/-- `listPostsInGallery(galleryOwnerId, galleryId, {includeDeleted})`:
scan every partition (ensuring each), collect `(authorId, post)` pairs
that match the gallery and pass the tombstone filter. -/
def listPostsScan (gOwner gid : String) (includeDeleted : Bool) :
    List String → St → List (String × Post) × St
  | [], st => ([], st)
  | k :: ks, st =>
    let st1 := ensureUserData st k
    let here := ((getPart st1 k).postsD.filter fun kv =>
      postMatches k gOwner gid kv.2 && (includeDeleted || kv.2.deletedAt.isNone)).map
        fun kv => (k, kv.2)
    let rest := listPostsScan gOwner gid includeDeleted ks st1
    (here ++ rest.1, rest.2)

def listPostsInGallery (st : St) (gOwner gid : String) (includeDeleted : Bool) :
    List (String × Post) × St :=
  listPostsScan gOwner gid includeDeleted (keys st.userData) st

/-! ### Permissions -/

/-- `isAdmin()` for an explicit acting user (`viewState.userId`). -/
def isAdmin (st : St) (actor : String) : Bool :=
  match alookup actor st.users with
  | some u => u.role == "admin"
  | none => false

/-- `canManage(userId)`: admin, or acting on one's own partition. -/
def canManage (st : St) (actor target : String) : Bool :=
  isAdmin st actor || target == actor

/-- Tagged outcome, one tag per distinct code path: `ok` for the
successful return, `permDenied` for the `canManage` guard (the
"권한 없음" toast), `invalid` for the silent `return false` /
"오류" branches (absent or wrongly-tombstoned target), and
`parentUnavailable` for `restorePost`'s "복원 불가" branch. -/
inductive Res where
  | ok : Res
  | permDenied : Res
  | invalid : Res
  | parentUnavailable : Res
deriving DecidableEq, Repr

/-! ### CRUD: Gallery -/

structure GalleryData where
  title : Option String
  desc : Option String
  icon : Option String
  color : Option String
  pinned : Bool
deriving DecidableEq, Repr

structure GalleryPatch where
  title : Option String
  desc : Option String
  icon : Option String
  color : Option String
  pinned : Option Bool
deriving DecidableEq, Repr

/-- `createGallery(ownerId, data)`; `gid` stands for the fresh
`safeId("g_")` and `now` for `nowISO()`. -/
def createGallery (st : St) (actor ownerId gid now : String) (data : GalleryData) : Res × St :=
  if canManage st actor ownerId then
    let st1 := ensureUserData st ownerId
    let g : Gallery :=
      { id := gid
        title := jsTrim (orElseStr data.title "새 갤러리")
        desc := jsTrim (orElseStr data.desc "")
        icon := orElseStr data.icon "🖼️"
        color := normalizeHex (orElseStr data.color "#6EE7FF")
        pinned := data.pinned
        createdAt := now, updatedAt := now, deletedAt := none }
    (.ok, setGalleryIn st1 ownerId gid g)
  else (.permDenied, st)

/-- `updateGallery(ownerId, gid, patch)`. -/
def updateGallery (st : St) (actor ownerId gid now : String) (patch : GalleryPatch) : Res × St :=
  if canManage st actor ownerId then
    let st1 := ensureUserData st ownerId
    match alookup gid (getPart st1 ownerId).galleriesD with
    | none => (.invalid, st1)
    | some g =>
      if g.deletedAt.isSome then (.invalid, st1)
      else
        let g' : Gallery :=
          { g with
            title := jsTrim (patch.title.getD g.title)
            desc := jsTrim (patch.desc.getD g.desc)
            icon := patch.icon.getD g.icon
            color := normalizeHex (patch.color.getD g.color)
            pinned := patch.pinned.getD g.pinned
            updatedAt := now }
        (.ok, setGalleryIn st1 ownerId gid g')
  else (.permDenied, st)

/-- The per-post mutation of `deleteGallerySoft`'s cascade loop: the
loop visits every post matching the gallery (`includeDeleted: true`)
and tombstones the ones not already tombstoned. -/
def delCascade (ownerId gid now aid : String) (p : Post) : Post :=
  if postMatches aid ownerId gid p && p.deletedAt.isNone then
    { p with deletedAt := some now, updatedAt := now, deletedByGallery := true }
  else p

/-- `deleteGallerySoft(ownerId, gid)`. -/
def deleteGallerySoft (st : St) (actor ownerId gid now : String) : Res × St :=
  if canManage st actor ownerId then
    let st1 := ensureUserData st ownerId
    match alookup gid (getPart st1 ownerId).galleriesD with
    | none => (.invalid, st1)
    | some g =>
      if g.deletedAt.isSome then (.invalid, st1)
      else
        let st2 := setGalleryIn st1 ownerId gid { g with deletedAt := some now, updatedAt := now }
        (.ok, mapAllPosts (delCascade ownerId gid now) st2)
  else (.permDenied, st)

/-- The per-post mutation of `restoreGallery`'s cascade loop: restore
exactly the matching posts tombstoned with `deletedByGallery`. -/
def restCascade (ownerId gid now aid : String) (p : Post) : Post :=
  if postMatches aid ownerId gid p && p.deletedAt.isSome && p.deletedByGallery then
    { p with deletedAt := none, deletedByGallery := false, updatedAt := now }
  else p

/-- `restoreGallery(ownerId, gid)`. -/
def restoreGallery (st : St) (actor ownerId gid now : String) : Res × St :=
  if canManage st actor ownerId then
    let st1 := ensureUserData st ownerId
    match alookup gid (getPart st1 ownerId).galleriesD with
    | none => (.invalid, st1)
    | some g =>
      if g.deletedAt.isNone then (.invalid, st1)
      else
        let st2 := setGalleryIn st1 ownerId gid { g with deletedAt := none, updatedAt := now }
        (.ok, mapAllPosts (restCascade ownerId gid now) st2)
  else (.permDenied, st)

/-- The post ids collected by `purgeGallery` via
`listPostsInGallery(..., {includeDeleted: true}).map(x => x.p.id)`. -/
def purgeMatchedIds (o gid : String) (st : St) : List String :=
  st.userData.flatMap fun e =>
    (e.2.norm.postsD.filter fun kv => postMatches e.1 o gid kv.2).map fun kv => kv.2.id

/-- The comment-removal loop of `purgeGallery`: in every partition
(ensured), delete each comment whose `postId` is among the collected
post ids. -/
def purgeCommentsStage (pids : List String) (st : St) : St :=
  { st with userData := st.userData.map fun e =>
      (e.1, { e.2.norm with comments := some (e.2.norm.commentsD.filter fun kv => !(pids.contains kv.2.postId)) }) }

/-- Erase from one partition's posts, in order, the ids of its posts
matching the purged gallery (`delete aud.posts[p.id]` per entry). -/
def purgePostsFrom (o gid aid : String) (l : List (String × Post)) : List (String × Post) :=
  ((l.filter fun kv => postMatches aid o gid kv.2).map fun kv => kv.2.id).foldl
    (fun acc i => aerase i acc) l

/-- The post-removal loop of `purgeGallery`: for each collected entry
`{ownerId: authorId, p}` run `delete aud.posts[p.id]`. -/
def purgePostsStage (o gid : String) (st : St) : St :=
  { st with userData := st.userData.map fun e =>
      (e.1, { e.2.norm with posts := some (purgePostsFrom o gid e.1 e.2.norm.postsD) }) }

/-- `delete ud.galleries[gid]` on the owner's partition. -/
def dropGalleryStage (o gid : String) (st : St) : St :=
  let p := getPart st o
  { st with userData := aset o { p with galleries := some (aerase gid p.galleriesD) } st.userData }

/-- `purgeGallery(ownerId, gid)`: permission check, gallery must merely
exist (tombstoned or not); then delete all comments referencing any
collected post id, delete the matching posts (`delete aud.posts[p.id]`),
and delete the gallery itself. -/
def purgeGallery (st : St) (actor ownerId gid : String) : Res × St :=
  if canManage st actor ownerId then
    let st1 := ensureUserData st ownerId
    match alookup gid (getPart st1 ownerId).galleriesD with
    | none => (.invalid, st1)
    | some _g =>
      let pids := purgeMatchedIds ownerId gid st1
      (.ok, dropGalleryStage ownerId gid (purgePostsStage ownerId gid (purgeCommentsStage pids st1)))
  else (.permDenied, st)

/-! ### CRUD: Post -/

/-- `createPost(authorId, data)`; `pid` stands for `safeId("p_")`. -/
def createPost (st : St) (actor authorId pid now : String)
    (galleryId : String) (galleryOwnerId : Option String)
    (title content : Option String) : Res × St :=
  if canManage st actor authorId then
    let rs := resolveGalleryCtx st galleryId galleryOwnerId
    match rs.1 with
    | none => (.invalid, rs.2)
    | some (gOwner, g) =>
      if g.deletedAt.isSome then (.invalid, rs.2)
      else
        let st2 := ensureUserData rs.2 authorId
        let p : Post :=
          { id := pid
            galleryOwnerId := some gOwner
            galleryId := g.id
            title := jsTrim (orElseStr title "새 게시물")
            content := jsTrim (orElseStr content "")
            createdAt := now, updatedAt := now
            deletedAt := none, deletedByGallery := false }
        (.ok, setPostIn st2 authorId pid p)
  else (.permDenied, st)

structure PostPatch where
  title : Option String
  content : Option String
deriving DecidableEq, Repr

/-- `updatePost(authorId, pid, patch)`. -/
def updatePost (st : St) (actor authorId pid now : String) (patch : PostPatch) : Res × St :=
  if canManage st actor authorId then
    let st1 := ensureUserData st authorId
    match alookup pid (getPart st1 authorId).postsD with
    | none => (.invalid, st1)
    | some p =>
      if p.deletedAt.isSome then (.invalid, st1)
      else
        let p' : Post :=
          { p with
            title := jsTrim (patch.title.getD p.title)
            content := jsTrim (patch.content.getD p.content)
            updatedAt := now }
        (.ok, setPostIn st1 authorId pid p')
  else (.permDenied, st)

/-- `deletePostSoft(authorId, pid)`: a direct delete always clears the
cascade flag. -/
def deletePostSoft (st : St) (actor authorId pid now : String) : Res × St :=
  if canManage st actor authorId then
    let st1 := ensureUserData st authorId
    match alookup pid (getPart st1 authorId).postsD with
    | none => (.invalid, st1)
    | some p =>
      if p.deletedAt.isSome then (.invalid, st1)
      else
        (.ok, setPostIn st1 authorId pid
          { p with deletedAt := some now, deletedByGallery := false, updatedAt := now })
  else (.permDenied, st)

/-- `restorePost(authorId, pid)`: fails while the owning gallery is
absent or tombstoned; on success clears tombstone and cascade flag. -/
def restorePost (st : St) (actor authorId pid now : String) : Res × St :=
  if canManage st actor authorId then
    let st1 := ensureUserData st authorId
    match alookup pid (getPart st1 authorId).postsD with
    | none => (.invalid, st1)
    | some p =>
      if p.deletedAt.isNone then (.invalid, st1)
      else
        let rs := resolveGalleryCtx st1 p.galleryId p.galleryOwnerId
        match rs.1 with
        | none => (.parentUnavailable, rs.2)
        | some (_o, g) =>
          if g.deletedAt.isSome then (.parentUnavailable, rs.2)
          else
            (.ok, setPostIn rs.2 authorId pid
              { p with deletedAt := none, deletedByGallery := false, updatedAt := now })
  else (.permDenied, st)

/-- The comment-removal loop of `purgePost`: in every partition
(ensured), delete each comment whose `postId` equals the purged post. -/
def purgePostCommentsStage (pid : String) (st : St) : St :=
  { st with userData := st.userData.map fun e =>
      (e.1, { e.2.norm with comments := some (e.2.norm.commentsD.filter fun kv => !(kv.2.postId == pid)) }) }

/-- `delete ud.posts[pid]` on the author's partition. -/
def dropPostStage (aid pid : String) (st : St) : St :=
  let p := getPart st aid
  { st with userData := aset aid { p with posts := some (aerase pid p.postsD) } st.userData }

/-- `purgePost(authorId, pid)`: delete every comment referencing the
post from every partition, then delete the post. -/
def purgePost (st : St) (actor authorId pid : String) : Res × St :=
  if canManage st actor authorId then
    let st1 := ensureUserData st authorId
    match alookup pid (getPart st1 authorId).postsD with
    | none => (.invalid, st1)
    | some _p =>
      (.ok, dropPostStage authorId pid (purgePostCommentsStage pid st1))
  else (.permDenied, st)

/-! ### CRUD: Comment -/

/-- `createComment(authorId, postId, text)`; `cid` stands for
`safeId("c_")`.  The target post is resolved with no hint. -/
def createComment (st : St) (actor authorId postId cid now : String)
    (text : Option String) : Res × St :=
  if canManage st actor authorId then
    let rs := resolvePostCtx st postId none
    match rs.1 with
    | none => (.invalid, rs.2)
    | some (_a, p) =>
      if p.deletedAt.isSome then (.invalid, rs.2)
      else
        let st2 := ensureUserData rs.2 authorId
        let c : Comment :=
          { id := cid, postId := postId, text := jsTrim (orElseStr text "")
            createdAt := now, updatedAt := now, deletedAt := none }
        (.ok, setCommentIn st2 authorId cid c)
  else (.permDenied, st)

/-- `updateComment(authorId, cid, patch)`. -/
def updateComment (st : St) (actor authorId cid now : String) (text : Option String) : Res × St :=
  if canManage st actor authorId then
    let st1 := ensureUserData st authorId
    match alookup cid (getPart st1 authorId).commentsD with
    | none => (.invalid, st1)
    | some c =>
      if c.deletedAt.isSome then (.invalid, st1)
      else
        (.ok, setCommentIn st1 authorId cid
          { c with text := jsTrim (text.getD c.text), updatedAt := now })
  else (.permDenied, st)

/-- `deleteCommentSoft(authorId, cid)`. -/
def deleteCommentSoft (st : St) (actor authorId cid now : String) : Res × St :=
  if canManage st actor authorId then
    let st1 := ensureUserData st authorId
    match alookup cid (getPart st1 authorId).commentsD with
    | none => (.invalid, st1)
    | some c =>
      if c.deletedAt.isSome then (.invalid, st1)
      else
        (.ok, setCommentIn st1 authorId cid
          { c with deletedAt := some now, updatedAt := now })
  else (.permDenied, st)

/-! ### Auth -/

/-- Result of `login`: the source distinguishes failures only by the
toast message, and both failure branches use this one literal. -/
inductive LRes where
  | ok (uid : String) : LRes
  | fail (msg : String) : LRes
deriving DecidableEq, Repr

def loginFailMsg : String := "아이디 또는 비밀번호가 올바르지 않습니다."

/-- `login(username, password)`; `H password salt` models the
deterministic PBKDF2 derivation `deriveHashB64` (salt handled in its
stored base64 form). -/
def login (H : String → String → String) (st : St) (username password : String) : LRes × St :=
  match alookup username st.usernameIndex with
  | none => (.fail loginFailMsg, st)
  | some uid =>
    if uid = "" then (.fail loginFailMsg, st)
    else
      match alookup uid st.users with
      | none => (.fail loginFailMsg, st)
      | some user =>
        if H password user.saltB64 ≠ user.hashB64 then (.fail loginFailMsg, st)
        else (.ok uid, ensureUserData st uid)

inductive SRes where
  | ok : SRes
  | invalidUsername : SRes
  | duplicate : SRes
deriving DecidableEq, Repr

/-- `signup(username, password)`; `salt` stands for the random salt (in
base64 form), `uid` for `safeId("u_")`, `now` for `nowISO()`. -/
def signup (H : String → String → String) (st : St)
    (username password salt uid now : String) : SRes × St :=
  if !isValidUsername username then (.invalidUsername, st)
  else if truthy (alookup username st.usernameIndex) then (.duplicate, st)
  else
    let user : User :=
      { userId := uid, username := username, saltB64 := salt
        hashB64 := H password salt, createdAt := now, role := "user" }
    let st1 : St :=
      { st with
        users := aset uid user st.users
        usernameIndex := aset username uid st.usernameIndex }
    (.ok, ensureUserData st1 uid)

/-! ### The command set, as a step relation

Every state-touching entry point of the source, with its impure inputs
(timestamps, generated ids, salt, the hash function) as parameters.
`Fresh` captures that `safeId` ids are collision-free in practice: a
create operation never reuses an id already stored anywhere.  (The
startup admin-bootstrap/demo-removal migration is not a repository
command and is outside this step relation.) -/
inductive Op where
  | createGallery (actor ownerId gid now : String) (data : GalleryData)
  | updateGallery (actor ownerId gid now : String) (patch : GalleryPatch)
  | deleteGallery (actor ownerId gid now : String)
  | restoreGallery (actor ownerId gid now : String)
  | purgeGallery (actor ownerId gid : String)
  | createPost (actor authorId pid now galleryId : String)
      (galleryOwnerId : Option String) (title content : Option String)
  | updatePost (actor authorId pid now : String) (patch : PostPatch)
  | deletePost (actor authorId pid now : String)
  | restorePost (actor authorId pid now : String)
  | purgePost (actor authorId pid : String)
  | createComment (actor authorId postId cid now : String) (text : Option String)
  | updateComment (actor authorId cid now : String) (text : Option String)
  | deleteComment (actor authorId cid now : String)
  | signup (H : String → String → String) (username password salt uid now : String)
  | login (H : String → String → String) (username password : String)
  | resolveGallery (gid : String) (hint : Option String)
  | resolvePost (pid : String) (hint : Option String)
  | listPosts (gOwner gid : String) (incl : Bool)
  | ensure (uid : String)

def Op.apply : Op → St → St
  | .createGallery actor ownerId gid now data, st =>
      (Gal.createGallery st actor ownerId gid now data).2
  | .updateGallery actor ownerId gid now patch, st =>
      (Gal.updateGallery st actor ownerId gid now patch).2
  | .deleteGallery actor ownerId gid now, st => (deleteGallerySoft st actor ownerId gid now).2
  | .restoreGallery actor ownerId gid now, st => (Gal.restoreGallery st actor ownerId gid now).2
  | .purgeGallery actor ownerId gid, st => (Gal.purgeGallery st actor ownerId gid).2
  | .createPost actor authorId pid now galleryId galleryOwnerId title content, st =>
      (Gal.createPost st actor authorId pid now galleryId galleryOwnerId title content).2
  | .updatePost actor authorId pid now patch, st =>
      (Gal.updatePost st actor authorId pid now patch).2
  | .deletePost actor authorId pid now, st => (deletePostSoft st actor authorId pid now).2
  | .restorePost actor authorId pid now, st => (Gal.restorePost st actor authorId pid now).2
  | .purgePost actor authorId pid, st => (Gal.purgePost st actor authorId pid).2
  | .createComment actor authorId postId cid now text, st =>
      (Gal.createComment st actor authorId postId cid now text).2
  | .updateComment actor authorId cid now text, st =>
      (Gal.updateComment st actor authorId cid now text).2
  | .deleteComment actor authorId cid now, st => (deleteCommentSoft st actor authorId cid now).2
  | .signup H username password salt uid now, st => (Gal.signup H st username password salt uid now).2
  | .login H username password, st => (Gal.login H st username password).2
  | .resolveGallery gid hint, st => (resolveGalleryCtx st gid hint).2
  | .resolvePost pid hint, st => (resolvePostCtx st pid hint).2
  | .listPosts gOwner gid incl, st => (listPostsInGallery st gOwner gid incl).2
  | .ensure uid, st => ensureUserData st uid

/-- Freshness of the generated ids (`safeId` never collides). -/
def Op.Fresh : Op → St → Prop
  | .createGallery _ _ gid _ _, st => ∀ o, lookupGallery st o gid = none
  | .createPost _ _ pid _ _ _ _ _, st => ∀ a, lookupPost st a pid = none
  | .createComment _ _ _ cid _ _, st => ∀ a, lookupComment st a cid = none
  | _, _ => True

/-- Whether the command is the gallery-restore cascade. -/
def Op.isRestoreGalleryCascade : Op → Bool
  | .restoreGallery _ _ _ _ => true
  | _ => false

/-- The freshly-initialized document (`loadState` with no stored
state). -/
def initialSt : St := ⟨[], [], []⟩

/-- States reachable from the initial document through the command
set. -/
inductive Reachable : St → Prop where
  | init : Reachable initialSt
  | step (st : St) (op : Op) : Reachable st → op.Fresh st → Reachable (op.apply st)

/-- The cascade-flag invariant: a post flagged `deletedByGallery` is
itself tombstoned, and the gallery it resolves to exists and is
tombstoned. -/
def FlagInv (st : St) : Prop :=
  ∀ aid pid p, lookupPost st aid pid = some p → p.deletedByGallery = true →
    p.deletedAt.isSome = true ∧
    ∃ g, lookupGallery st (resolvedOwner p aid) p.galleryId = some g ∧
      g.deletedAt.isSome = true

/-- Every gallery id is stored in at most one partition. -/
def GalUnique (st : St) : Prop :=
  ∀ o1 o2 gid g1 g2, lookupGallery st o1 gid = some g1 →
    lookupGallery st o2 gid = some g2 → o1 = o2

/-- Every post is stored under its own id. -/
def PostKeyId (st : St) : Prop :=
  ∀ aid pid p, lookupPost st aid pid = some p → p.id = pid

/-- Key lists hold no duplicates. -/
def KeysOK (st : St) : Prop :=
  ∀ a, (keys (getPart st a).postsD).Nodup ∧ (keys (getPart st a).galleriesD).Nodup

def Inv (st : St) : Prop := FlagInv st ∧ GalUnique st ∧ PostKeyId st ∧ KeysOK st

/-- No surviving post has its cascade flag cleared from one state to
the next. -/
def FlagPres (st st2 : St) : Prop :=
  ∀ aid pid p p2, lookupPost st aid pid = some p → lookupPost st2 aid pid = some p2 →
    p.deletedByGallery = true → p2.deletedByGallery = true

/-! ### A concrete scenario (used to instantiate the theorems)

The two-user scenario of the specification: alice creates gallery
"Trip", bob creates post "Day1" in it, bob comments, alice deletes and
later restores the gallery. -/

def wH : String → String → String := fun p s => p ++ s

def wSt0 : St := ⟨[], [], []⟩

def wStA : St := (signup wH wSt0 "alice" "pw1234" "saltA" "ua" "t0").2

def wStB : St := (signup wH wStA "bob" "pw5678" "saltB" "ub" "t1").2

def wStG : St := (createGallery wStB "ua" "ua" "g1" "t2" ⟨some "Trip", none, none, none, false⟩).2

def wStP : St := (createPost wStG "ub" "ub" "p1" "t3" "g1" (some "ua") (some "Day1") none).2

def wStC : St := (createComment wStP "ua" "ua" "p1" "c1" "t4" (some "nice")).2

def wStD : St := (deleteGallerySoft wStC "ua" "ua" "g1" "t5").2

def wG1 : Gallery := ⟨"g1", "Trip", "", "🖼️", "#6EE7FF", false, "t2", "t2", none⟩

def wG1del : Gallery := ⟨"g1", "Trip", "", "🖼️", "#6EE7FF", false, "t2", "t5", some "t5"⟩

def wP1 : Post := ⟨"p1", some "ua", "g1", "Day1", "", "t3", "t3", none, false⟩

def wP1del : Post := ⟨"p1", some "ua", "g1", "Day1", "", "t3", "t5", some "t5", true⟩

def wUserA : User := ⟨"ua", "alice", "saltA", "pw1234saltA", "t0", "user"⟩

/-- Variant: bob deletes his post directly, then alice deletes and
restores the gallery; the post must stay tombstoned. -/
def wStE1 : St := (deletePostSoft wStC "ub" "ub" "p1" "t5").2

def wStE2 : St := (deleteGallerySoft wStE1 "ua" "ua" "g1" "t6").2

def wStE3 : St := (restoreGallery wStE2 "ua" "ua" "g1" "t7").2

def wP1indep : Post := ⟨"p1", some "ua", "g1", "Day1", "", "t3", "t5", some "t5", false⟩

/-- A document whose only account holds the admin role (as the
bootstrap provisions). -/
def wStAdmin : St := ⟨[("adm", ⟨"adm", "admin", "sA", "hA", "t0", "admin"⟩)], [("admin", "adm")], []⟩

/-! ### Association-list lemmas -/

@[simp] theorem alookup_aset_self {β : Type} (k : String) (v : β) (l : List (String × β)) :
    alookup k (aset k v l) = some v := by
  induction l with
  | nil => simp [aset, alookup]
  | cons e l ih =>
    by_cases h : e.1 = k
    · simp [aset, h, alookup]
    · simp [aset, h, alookup, ih]

theorem alookup_aset_ne {β : Type} {k j : String} (h : k ≠ j) (v : β) (l : List (String × β)) :
    alookup k (aset j v l) = alookup k l := by
  have hjk : ¬ (j = k) := fun hh => h hh.symm
  induction l with
  | nil => simp [aset, alookup, hjk]
  | cons e l ih =>
    by_cases he : e.1 = j
    · have hek : ¬ (e.1 = k) := by rw [he]; exact hjk
      simp [aset, he, alookup, hjk, hek]
    · simp [aset, he, alookup, ih]

theorem alookup_map {β γ : Type} (f : String → β → γ) (k : String) (l : List (String × β)) :
    alookup k (l.map fun e => (e.1, f e.1 e.2)) = (alookup k l).map (f k) := by
  induction l with
  | nil => rfl
  | cons e l ih =>
    by_cases h : e.1 = k
    · simp [alookup, h]
    · simp [alookup, h, ih]

theorem alookup_mapv {β γ : Type} (f : β → γ) (k : String) (l : List (String × β)) :
    alookup k (l.map fun e => (e.1, f e.2)) = (alookup k l).map f := by
  induction l with
  | nil => rfl
  | cons e l ih =>
    by_cases h : e.1 = k
    · simp [alookup, h]
    · simp [alookup, h, ih]

theorem alookup_aerase_ne {β : Type} {k j : String} (h : k ≠ j) (l : List (String × β)) :
    alookup k (aerase j l) = alookup k l := by
  have hjk : ¬ (j = k) := fun hh => h hh.symm
  induction l with
  | nil => rfl
  | cons e l ih =>
    by_cases he : e.1 = j
    · have hek : ¬ (e.1 = k) := by rw [he]; exact hjk
      simp [aerase, he, alookup, hek, hjk]
    · simp [aerase, he, alookup, ih]

theorem mem_of_alookup {β : Type} {k : String} {v : β} {l : List (String × β)}
    (h : alookup k l = some v) : (k, v) ∈ l := by
  induction l with
  | nil => simp [alookup] at h
  | cons e l ih =>
    by_cases he : e.1 = k
    · simp [alookup, he] at h
      obtain ⟨e1, e2⟩ := e
      simp at he
      subst he; subst h
      exact List.mem_cons_self _ _
    · simp [alookup, he] at h
      exact List.mem_cons_of_mem _ (ih h)

theorem mem_keys_of_alookup {β : Type} {k : String} {v : β} {l : List (String × β)}
    (h : alookup k l = some v) : k ∈ keys l := by
  have := mem_of_alookup h
  exact List.mem_map.mpr ⟨(k, v), this, rfl⟩

theorem alookup_eq_none_of_not_mem {β : Type} {k : String} {l : List (String × β)}
    (h : k ∉ keys l) : alookup k l = none := by
  cases hl : alookup k l with
  | none => rfl
  | some v => exact absurd (mem_keys_of_alookup hl) h

theorem alookup_aerase_self {β : Type} (k : String) {l : List (String × β)}
    (h : (keys l).Nodup) : alookup k (aerase k l) = none := by
  induction l with
  | nil => rfl
  | cons e l ih =>
    by_cases he : e.1 = k
    · simp only [aerase, he, if_pos]
      have : e.1 ∉ keys l := (List.nodup_cons.mp h).1
      rw [he] at this
      exact alookup_eq_none_of_not_mem this
    · simp [aerase, he, alookup, ih (List.nodup_cons.mp h).2]

theorem keys_aerase_sublist {β : Type} (k : String) (l : List (String × β)) :
    List.Sublist (keys (aerase k l)) (keys l) := by
  induction l with
  | nil => simp [aerase, keys]
  | cons e l ih =>
    by_cases he : e.1 = k
    · simp only [aerase, he, if_pos, keys, List.map_cons]
      exact List.sublist_cons_self _ _
    · simp only [aerase, he, if_neg, keys, List.map_cons]
      exact ih.cons₂ _

theorem keys_aerase_nodup {β : Type} (k : String) {l : List (String × β)}
    (h : (keys l).Nodup) : (keys (aerase k l)).Nodup :=
  h.sublist (keys_aerase_sublist k l)

theorem mem_keys_aset {β : Type} {j k : String} {v : β} {l : List (String × β)}
    (h : j ∈ keys (aset k v l)) : j = k ∨ j ∈ keys l := by
  induction l with
  | nil => simpa [aset, keys] using h
  | cons e l ih =>
    by_cases he : e.1 = k
    · simp only [aset, he, if_pos, keys, List.map_cons] at h
      rcases List.mem_cons.mp h with h | h
      · exact Or.inl h
      · exact Or.inr (List.mem_cons.mpr (Or.inr h))
    · simp only [aset, he, if_neg, keys, List.map_cons] at h
      rcases List.mem_cons.mp h with h | h
      · exact Or.inr (by simp [keys, h])
      · rcases ih h with h | h
        · exact Or.inl h
        · exact Or.inr (by simp [keys]; right; simpa [keys] using h)

theorem mem_keys_aset_of_mem {β : Type} {j k : String} (v : β) {l : List (String × β)}
    (h : j ∈ keys l) : j ∈ keys (aset k v l) := by
  induction l with
  | nil => simp [keys] at h
  | cons e l ih =>
    by_cases he : e.1 = k
    · simp only [aset, he, if_pos, keys, List.map_cons]
      rcases List.mem_cons.mp h with h | h
      · rw [← he]; exact List.mem_cons.mpr (Or.inl h)
      · exact List.mem_cons.mpr (Or.inr h)
    · simp only [aset, he, if_neg, keys, List.map_cons] at h ⊢
      rcases List.mem_cons.mp h with h | h
      · exact List.mem_cons.mpr (Or.inl h)
      · exact List.mem_cons.mpr (Or.inr (ih h))

theorem keys_aset_nodup {β : Type} (k : String) (v : β) {l : List (String × β)}
    (h : (keys l).Nodup) : (keys (aset k v l)).Nodup := by
  induction l with
  | nil => simp [aset, keys]
  | cons e l ih =>
    obtain ⟨h1, h2⟩ := List.nodup_cons.mp h
    by_cases he : e.1 = k
    · simp only [aset, he, if_pos, keys, List.map_cons]
      rw [he] at h1
      exact List.nodup_cons.mpr ⟨h1, h2⟩
    · simp only [aset, he, if_neg, keys, List.map_cons]
      refine List.nodup_cons.mpr ⟨?_, ih h2⟩
      intro hmem
      rcases mem_keys_aset hmem with h | h
      · exact he h
      · exact h1 h

theorem keys_filter_nodup {β : Type} (P : String × β → Bool) {l : List (String × β)}
    (h : (keys l).Nodup) : (keys (l.filter P)).Nodup :=
  h.sublist ((List.filter_sublist _).map Prod.fst)

theorem keys_map_entries {β γ : Type} (f : String → β → γ) (l : List (String × β)) :
    keys (l.map fun e => (e.1, f e.1 e.2)) = keys l := by
  simp [keys, List.map_map, Function.comp]

theorem keys_mapv {β γ : Type} (f : β → γ) (l : List (String × β)) :
    keys (l.map fun e => (e.1, f e.2)) = keys l := by
  simp [keys, List.map_map, Function.comp]

theorem alookup_foldl_aerase {β : Type} (ids : List String) {l : List (String × β)}
    (hnd : (keys l).Nodup) (k : String) :
    alookup k (ids.foldl (fun acc i => aerase i acc) l) =
      if k ∈ ids then none else alookup k l := by
  induction ids generalizing l with
  | nil => simp
  | cons i ids ih =>
    have hnd' : (keys (aerase i l)).Nodup := keys_aerase_nodup i hnd
    simp only [List.foldl_cons]
    rw [ih hnd']
    by_cases hk : k ∈ ids
    · simp [hk, List.mem_cons]
    · by_cases hki : k = i
      · subst hki
        simp [hk, alookup_aerase_self k hnd]
      · simp [hk, hki, alookup_aerase_ne hki]

theorem prop_of_alookup_filter {β : Type} {P : String × β → Bool} {k : String} {v : β}
    {l : List (String × β)} (h : alookup k (l.filter P) = some v) : P (k, v) = true :=
  (List.mem_filter.mp (mem_of_alookup h)).2

/-! ### Normalization lemmas -/

theorem orElseStr_idem (o : Option String) (d : String) :
    orElseStr (some (orElseStr o d)) d = orElseStr o d := by
  cases o with
  | none =>
    simp only [orElseStr]
    split <;> rfl
  | some s =>
    by_cases h : s = ""
    · simp only [orElseStr, h, if_pos]
      split <;> rfl
    · simp [orElseStr, h]

theorem rawSettingsNorm_idem (s : RawSettings) : s.norm.norm = s.norm := by
  simp [RawSettings.norm, orElseStr_idem]

@[simp] theorem norm_galleriesD (p : RawPartition) : p.norm.galleriesD = p.galleriesD := rfl

@[simp] theorem norm_postsD (p : RawPartition) : p.norm.postsD = p.postsD := rfl

@[simp] theorem norm_commentsD (p : RawPartition) : p.norm.commentsD = p.commentsD := rfl

theorem rawPartitionNorm_idem (p : RawPartition) : p.norm.norm = p.norm := by
  simp [RawPartition.norm, rawSettingsNorm_idem, RawPartition.galleriesD,
    RawPartition.postsD, RawPartition.commentsD]

theorem norm_set_galleries (p : RawPartition) (X : List (String × Gallery)) :
    RawPartition.norm ⟨p.norm.settings, some X, p.norm.posts, p.norm.comments⟩ =
      ⟨p.norm.settings, some X, p.norm.posts, p.norm.comments⟩ := by
  simp [RawPartition.norm, rawSettingsNorm_idem, RawPartition.galleriesD,
    RawPartition.postsD, RawPartition.commentsD]

theorem norm_set_posts (p : RawPartition) (X : List (String × Post)) :
    RawPartition.norm ⟨p.norm.settings, p.norm.galleries, some X, p.norm.comments⟩ =
      ⟨p.norm.settings, p.norm.galleries, some X, p.norm.comments⟩ := by
  simp [RawPartition.norm, rawSettingsNorm_idem, RawPartition.galleriesD,
    RawPartition.postsD, RawPartition.commentsD]

theorem norm_set_comments (p : RawPartition) (X : List (String × Comment)) :
    RawPartition.norm ⟨p.norm.settings, p.norm.galleries, p.norm.posts, some X⟩ =
      ⟨p.norm.settings, p.norm.galleries, p.norm.posts, some X⟩ := by
  simp [RawPartition.norm, rawSettingsNorm_idem, RawPartition.galleriesD,
    RawPartition.postsD, RawPartition.commentsD]

/-! ### State-access lemmas -/

theorem getPart_ensure (st : St) (u a : String) :
    getPart (ensureUserData st u) a = getPart st a := by
  by_cases h : a = u
  · subst h
    simp only [getPart, ensureUserData, alookup_aset_self, Option.getD_some]
    exact rawPartitionNorm_idem _
  · simp only [getPart, ensureUserData]
    rw [alookup_aset_ne h]

theorem getPart_ensureAll (st : St) (a : String) :
    getPart (ensureAll st) a = getPart st a := by
  simp only [getPart, ensureAll]
  rw [show (st.userData.map fun e => (e.1, e.2.norm)) =
      (st.userData.map fun e => (e.1, RawPartition.norm e.2)) from rfl, alookup_mapv]
  cases h : alookup a st.userData with
  | none => simp
  | some part => simp [rawPartitionNorm_idem]

theorem getPart_mapAllPosts (f : String → Post → Post) (st : St) (a : String) :
    getPart (mapAllPosts f st) a =
      { getPart st a with posts := some ((getPart st a).postsD.map fun kv => (kv.1, f a kv.2)) } := by
  simp only [getPart, mapAllPosts]
  have hmap := alookup_map (fun k (q : RawPartition) =>
    ({ q.norm with posts := some (q.norm.postsD.map fun kv => (kv.1, f k kv.2)) } : RawPartition)) a st.userData
  simp only [] at hmap
  rw [hmap]
  cases h : alookup a st.userData with
  | none => simp [rawEmpty, RawPartition.norm, RawPartition.galleriesD, RawPartition.postsD,
      RawPartition.commentsD]
  | some part =>
    simp only [Option.map_some, Option.getD_some]
    exact norm_set_posts part _

theorem getPart_norm (st : St) (a : String) : (getPart st a).norm = getPart st a :=
  rawPartitionNorm_idem _

/-- Writing a normalized partition into the document, as read back by
`getPart`. -/
theorem getPart_aset_self (st : St) (a0 : String) (q : RawPartition) (hq : q.norm = q) :
    getPart { st with userData := aset a0 q st.userData } a0 = q := by
  simp only [getPart, alookup_aset_self, Option.getD_some]
  exact hq

theorem getPart_aset_ne (st : St) {a0 a : String} (h : a ≠ a0) (q : RawPartition) :
    getPart { st with userData := aset a0 q st.userData } a = getPart st a := by
  simp only [getPart]
  rw [alookup_aset_ne h]

/-- Mapping a per-partition transformation over the whole document, as
read back by `getPart`: `h1` says the result is normalized, `h2` that it
only depends on the normalized partition, `h3` that it fixes the
partition an absent key reads as. -/
theorem getPart_mapUD (g : String → RawPartition → RawPartition) (st : St) (a : String)
    (h1 : ∀ k q, (g k q).norm = g k q)
    (h2 : ∀ k q, g k q.norm = g k q)
    (h3 : g a rawEmpty = rawEmpty.norm) :
    getPart { st with userData := st.userData.map fun e => (e.1, g e.1 e.2) } a
      = g a (getPart st a) := by
  simp only [getPart]
  rw [alookup_map]
  cases h : alookup a st.userData with
  | none =>
    show (rawEmpty : RawPartition).norm = g a rawEmpty.norm
    rw [h2, h3]
  | some part =>
    show (g a part).norm = g a part.norm
    rw [h1]
    exact (h2 a part).symm

theorem getPart_setGalleryIn_self (st : St) (o gid : String) (g : Gallery) :
    getPart (setGalleryIn st o gid g) o
      = ⟨(getPart st o).settings, some (aset gid g (getPart st o).galleriesD),
         (getPart st o).posts, (getPart st o).comments⟩ :=
  getPart_aset_self st o _ (norm_set_galleries ((alookup o st.userData).getD rawEmpty) _)

theorem getPart_setGalleryIn_ne (st : St) {o a : String} (h : a ≠ o) (gid : String) (g : Gallery) :
    getPart (setGalleryIn st o gid g) a = getPart st a :=
  getPart_aset_ne st h _

theorem getPart_setPostIn_self (st : St) (aid pid : String) (p : Post) :
    getPart (setPostIn st aid pid p) aid
      = ⟨(getPart st aid).settings, (getPart st aid).galleries,
         some (aset pid p (getPart st aid).postsD), (getPart st aid).comments⟩ :=
  getPart_aset_self st aid _ (norm_set_posts ((alookup aid st.userData).getD rawEmpty) _)

theorem getPart_setPostIn_ne (st : St) {aid a : String} (h : a ≠ aid) (pid : String) (p : Post) :
    getPart (setPostIn st aid pid p) a = getPart st a :=
  getPart_aset_ne st h _

theorem getPart_setCommentIn_self (st : St) (aid cid : String) (c : Comment) :
    getPart (setCommentIn st aid cid c) aid
      = ⟨(getPart st aid).settings, (getPart st aid).galleries,
         (getPart st aid).posts, some (aset cid c (getPart st aid).commentsD)⟩ :=
  getPart_aset_self st aid _ (norm_set_comments ((alookup aid st.userData).getD rawEmpty) _)

theorem getPart_setCommentIn_ne (st : St) {aid a : String} (h : a ≠ aid) (cid : String) (c : Comment) :
    getPart (setCommentIn st aid cid c) a = getPart st a :=
  getPart_aset_ne st h _

theorem getPart_dropGalleryStage_self (st : St) (o gid : String) :
    getPart (dropGalleryStage o gid st) o
      = ⟨(getPart st o).settings, some (aerase gid (getPart st o).galleriesD),
         (getPart st o).posts, (getPart st o).comments⟩ :=
  getPart_aset_self st o _ (norm_set_galleries ((alookup o st.userData).getD rawEmpty) _)

theorem getPart_dropGalleryStage_ne (st : St) {o a : String} (h : a ≠ o) (gid : String) :
    getPart (dropGalleryStage o gid st) a = getPart st a :=
  getPart_aset_ne st h _

theorem getPart_dropPostStage_self (st : St) (aid pid : String) :
    getPart (dropPostStage aid pid st) aid
      = ⟨(getPart st aid).settings, (getPart st aid).galleries,
         some (aerase pid (getPart st aid).postsD), (getPart st aid).comments⟩ :=
  getPart_aset_self st aid _ (norm_set_posts ((alookup aid st.userData).getD rawEmpty) _)

theorem getPart_dropPostStage_ne (st : St) {aid a : String} (h : a ≠ aid) (pid : String) :
    getPart (dropPostStage aid pid st) a = getPart st a :=
  getPart_aset_ne st h _

theorem getPart_purgeCommentsStage (pids : List String) (st : St) (a : String) :
    getPart (purgeCommentsStage pids st) a
      = ⟨(getPart st a).settings, (getPart st a).galleries, (getPart st a).posts,
         some ((getPart st a).commentsD.filter fun kv => !(pids.contains kv.2.postId))⟩ := by
  have h := getPart_mapUD (fun _k q => (⟨q.norm.settings, q.norm.galleries, q.norm.posts,
      some (q.norm.commentsD.filter fun kv => !(pids.contains kv.2.postId))⟩ : RawPartition)) st a
    (fun _k q => norm_set_comments q _)
    (fun _k q => by simp only [rawPartitionNorm_idem])
    rfl
  simp only [] at h
  rw [getPart_norm] at h
  exact h

theorem getPart_purgePostsStage (o gid : String) (st : St) (a : String) :
    getPart (purgePostsStage o gid st) a
      = ⟨(getPart st a).settings, (getPart st a).galleries,
         some (purgePostsFrom o gid a (getPart st a).postsD), (getPart st a).comments⟩ := by
  have h := getPart_mapUD (fun k q => (⟨q.norm.settings, q.norm.galleries,
      some (purgePostsFrom o gid k q.norm.postsD), q.norm.comments⟩ : RawPartition)) st a
    (fun _k q => norm_set_posts q _)
    (fun _k q => by simp only [rawPartitionNorm_idem])
    rfl
  simp only [] at h
  rw [getPart_norm] at h
  exact h

theorem getPart_purgePostCommentsStage (pid : String) (st : St) (a : String) :
    getPart (purgePostCommentsStage pid st) a
      = ⟨(getPart st a).settings, (getPart st a).galleries, (getPart st a).posts,
         some ((getPart st a).commentsD.filter fun kv => !(kv.2.postId == pid))⟩ := by
  have h := getPart_mapUD (fun _k q => (⟨q.norm.settings, q.norm.galleries, q.norm.posts,
      some (q.norm.commentsD.filter fun kv => !(kv.2.postId == pid))⟩ : RawPartition)) st a
    (fun _k q => norm_set_comments q _)
    (fun _k q => by simp only [rawPartitionNorm_idem])
    rfl
  simp only [] at h
  rw [getPart_norm] at h
  exact h

/-! ### Field preservation: no operation on partitions touches
`users` or `usernameIndex` -/

@[simp] theorem users_ensureUserData (st : St) (u : String) :
    (ensureUserData st u).users = st.users := rfl

@[simp] theorem users_ensureAll (st : St) : (ensureAll st).users = st.users := rfl

@[simp] theorem users_mapAllPosts (f : String → Post → Post) (st : St) :
    (mapAllPosts f st).users = st.users := rfl

@[simp] theorem users_setGalleryIn (st : St) (o gid : String) (g : Gallery) :
    (setGalleryIn st o gid g).users = st.users := rfl

@[simp] theorem users_setPostIn (st : St) (aid pid : String) (p : Post) :
    (setPostIn st aid pid p).users = st.users := rfl

@[simp] theorem users_setCommentIn (st : St) (aid cid : String) (c : Comment) :
    (setCommentIn st aid cid c).users = st.users := rfl

@[simp] theorem users_purgeCommentsStage (pids : List String) (st : St) :
    (purgeCommentsStage pids st).users = st.users := rfl

@[simp] theorem users_purgePostsStage (o gid : String) (st : St) :
    (purgePostsStage o gid st).users = st.users := rfl

@[simp] theorem users_dropGalleryStage (o gid : String) (st : St) :
    (dropGalleryStage o gid st).users = st.users := rfl

@[simp] theorem users_purgePostCommentsStage (pid : String) (st : St) :
    (purgePostCommentsStage pid st).users = st.users := rfl

@[simp] theorem users_dropPostStage (aid pid : String) (st : St) :
    (dropPostStage aid pid st).users = st.users := rfl

theorem users_scanGalleries (gid : String) (ks : List String) (st : St) :
    ((scanGalleries gid ks st).2).users = st.users := by
  induction ks generalizing st with
  | nil => rfl
  | cons k ks ih =>
    simp only [scanGalleries]
    cases h : alookup gid (getPart (ensureUserData st k) k).galleriesD with
    | some g => simp [h]
    | none => simp only [h]; rw [ih]; rfl

theorem users_scanPosts (pid : String) (ks : List String) (st : St) :
    ((scanPosts pid ks st).2).users = st.users := by
  induction ks generalizing st with
  | nil => rfl
  | cons k ks ih =>
    simp only [scanPosts]
    cases h : alookup pid (getPart (ensureUserData st k) k).postsD with
    | some p => simp [h]
    | none => simp only [h]; rw [ih]; rfl

theorem users_resolveGalleryCtx (st : St) (gid : String) (hint : Option String) :
    ((resolveGalleryCtx st gid hint).2).users = st.users := by
  unfold resolveGalleryCtx
  by_cases hg : gid = ""
  · simp [hg]
  · simp only [hg, if_neg, ite_false]
    cases hint with
    | none => exact users_scanGalleries _ _ _
    | some h =>
      by_cases hh : h = ""
      · simp only [hh, if_pos, ite_true]
        exact users_scanGalleries _ _ _
      · simp only [hh, if_neg, ite_false]
        cases hl : alookup gid (getPart (ensureUserData st h) h).galleriesD with
        | some g => simp [hl]
        | none =>
          simp only [hl]
          rw [users_scanGalleries]
          rfl

theorem getPart_scanGalleries (gid : String) (ks : List String) (st : St) (a : String) :
    getPart ((scanGalleries gid ks st).2) a = getPart st a := by
  induction ks generalizing st with
  | nil => rfl
  | cons k ks ih =>
    simp only [scanGalleries]
    cases h : alookup gid (getPart (ensureUserData st k) k).galleriesD with
    | some g => simp only [h]; exact getPart_ensure st k a
    | none => simp only [h]; rw [ih]; exact getPart_ensure st k a

theorem getPart_scanPosts (pid : String) (ks : List String) (st : St) (a : String) :
    getPart ((scanPosts pid ks st).2) a = getPart st a := by
  induction ks generalizing st with
  | nil => rfl
  | cons k ks ih =>
    simp only [scanPosts]
    cases h : alookup pid (getPart (ensureUserData st k) k).postsD with
    | some p => simp only [h]; exact getPart_ensure st k a
    | none => simp only [h]; rw [ih]; exact getPart_ensure st k a

theorem getPart_resolveGalleryCtx (st : St) (gid : String) (hint : Option String) (a : String) :
    getPart ((resolveGalleryCtx st gid hint).2) a = getPart st a := by
  unfold resolveGalleryCtx
  by_cases hg : gid = ""
  · simp [hg]
  · simp only [hg, ite_false, if_neg]
    cases hint with
    | none => exact getPart_scanGalleries _ _ _ _
    | some h =>
      by_cases hh : h = ""
      · simp only [hh, if_pos, ite_true]
        exact getPart_scanGalleries _ _ _ _
      · simp only [hh, if_neg, ite_false]
        cases hl : alookup gid (getPart (ensureUserData st h) h).galleriesD with
        | some g => simp only [hl]; exact getPart_ensure st h a
        | none =>
          simp only [hl]
          rw [getPart_scanGalleries]
          exact getPart_ensure st h a

theorem getPart_resolvePostCtx (st : St) (pid : String) (hint : Option String) (a : String) :
    getPart ((resolvePostCtx st pid hint).2) a = getPart st a := by
  unfold resolvePostCtx
  by_cases hg : pid = ""
  · simp [hg]
  · simp only [hg, ite_false, if_neg]
    cases hint with
    | none => exact getPart_scanPosts _ _ _ _
    | some h =>
      by_cases hh : h = ""
      · simp only [hh, if_pos, ite_true]
        exact getPart_scanPosts _ _ _ _
      · simp only [hh, if_neg, ite_false]
        cases hl : alookup pid (getPart (ensureUserData st h) h).postsD with
        | some p => simp only [hl]; exact getPart_ensure st h a
        | none =>
          simp only [hl]
          rw [getPart_scanPosts]
          exact getPart_ensure st h a

theorem scanGalleries_sound {gid : String} {ks : List String} {st : St} {o : String} {g : Gallery}
    (h : (scanGalleries gid ks st).1 = some (o, g)) : lookupGallery st o gid = some g := by
  induction ks generalizing st with
  | nil => simp [scanGalleries] at h
  | cons k ks ih =>
    simp only [scanGalleries] at h
    cases hl : alookup gid (getPart (ensureUserData st k) k).galleriesD with
    | some g2 =>
      rw [hl] at h
      simp only [Option.some.injEq, Prod.mk.injEq] at h
      obtain ⟨hko, hgg⟩ := h
      unfold lookupGallery
      rw [← hko, ← hgg, ← getPart_ensure st k k]
      exact hl
    | none =>
      rw [hl] at h
      have h2 := @ih (ensureUserData st k) h
      unfold lookupGallery at h2 ⊢
      rw [getPart_ensure] at h2
      exact h2

theorem scanPosts_sound {pid : String} {ks : List String} {st : St} {o : String} {p : Post}
    (h : (scanPosts pid ks st).1 = some (o, p)) : lookupPost st o pid = some p := by
  induction ks generalizing st with
  | nil => simp [scanPosts] at h
  | cons k ks ih =>
    simp only [scanPosts] at h
    cases hl : alookup pid (getPart (ensureUserData st k) k).postsD with
    | some p2 =>
      rw [hl] at h
      simp only [Option.some.injEq, Prod.mk.injEq] at h
      obtain ⟨hko, hpp⟩ := h
      unfold lookupPost
      rw [← hko, ← hpp, ← getPart_ensure st k k]
      exact hl
    | none =>
      rw [hl] at h
      have h2 := @ih (ensureUserData st k) h
      unfold lookupPost at h2 ⊢
      rw [getPart_ensure] at h2
      exact h2

theorem resolveGalleryCtx_sound {st : St} {gid : String} {hint : Option String} {o : String}
    {g : Gallery} (h : (resolveGalleryCtx st gid hint).1 = some (o, g)) :
    lookupGallery st o gid = some g := by
  unfold resolveGalleryCtx at h
  by_cases hg : gid = ""
  · simp [hg] at h
  · simp only [hg, ite_false, if_neg] at h
    cases hint with
    | none => exact scanGalleries_sound h
    | some hh =>
      by_cases hhe : hh = ""
      · simp only [hhe, if_pos, ite_true] at h
        exact scanGalleries_sound h
      · simp only [hhe, if_neg, ite_false] at h
        cases hl : alookup gid (getPart (ensureUserData st hh) hh).galleriesD with
        | some g2 =>
          rw [hl] at h
          simp only [Option.some.injEq, Prod.mk.injEq] at h
          obtain ⟨hko, hgg⟩ := h
          unfold lookupGallery
          rw [← hko, ← hgg, ← getPart_ensure st hh hh]
          exact hl
        | none =>
          rw [hl] at h
          have h2 := scanGalleries_sound h
          unfold lookupGallery at h2 ⊢
          rw [getPart_ensure] at h2
          exact h2

theorem resolvePostCtx_sound {st : St} {pid : String} {hint : Option String} {o : String}
    {p : Post} (h : (resolvePostCtx st pid hint).1 = some (o, p)) :
    lookupPost st o pid = some p := by
  unfold resolvePostCtx at h
  by_cases hg : pid = ""
  · simp [hg] at h
  · simp only [hg, ite_false, if_neg] at h
    cases hint with
    | none => exact scanPosts_sound h
    | some hh =>
      by_cases hhe : hh = ""
      · simp only [hhe, if_pos, ite_true] at h
        exact scanPosts_sound h
      · simp only [hhe, if_neg, ite_false] at h
        cases hl : alookup pid (getPart (ensureUserData st hh) hh).postsD with
        | some p2 =>
          rw [hl] at h
          simp only [Option.some.injEq, Prod.mk.injEq] at h
          obtain ⟨hko, hpp⟩ := h
          unfold lookupPost
          rw [← hko, ← hpp, ← getPart_ensure st hh hh]
          exact hl
        | none =>
          rw [hl] at h
          have h2 := scanPosts_sound h
          unfold lookupPost at h2 ⊢
          rw [getPart_ensure] at h2
          exact h2

theorem mem_keys_userData_of_lookupGallery {st : St} {ro gid : String} {g : Gallery}
    (h : lookupGallery st ro gid = some g) : ro ∈ keys st.userData := by
  cases hl : alookup ro st.userData with
  | some part => exact mem_keys_of_alookup hl
  | none =>
    unfold lookupGallery getPart at h
    rw [hl] at h
    simp [rawEmpty, RawPartition.norm, RawPartition.galleriesD, alookup] at h

theorem scanGalleries_found (gid ro : String) (g : Gallery) (ks : List String) :
    ∀ st : St, (∀ o2, o2 ≠ ro → lookupGallery st o2 gid = none) →
      lookupGallery st ro gid = some g → ro ∈ ks →
      (scanGalleries gid ks st).1 = some (ro, g) := by
  induction ks with
  | nil => intro st _ _ hmem; simp at hmem
  | cons k ks ih =>
    intro st hU hg hmem
    simp only [scanGalleries]
    by_cases hk : k = ro
    · subst hk
      have hl : alookup gid (getPart (ensureUserData st k) k).galleriesD = some g := by
        rw [getPart_ensure]; exact hg
      rw [hl]
    · have hl : alookup gid (getPart (ensureUserData st k) k).galleriesD = none := by
        rw [getPart_ensure]; exact hU k hk
      rw [hl]
      have hmem2 : ro ∈ ks := by
        rcases List.mem_cons.mp hmem with h | h
        · exact absurd h.symm hk
        · exact h
      refine ih (ensureUserData st k) ?_ ?_ hmem2
      · intro o2 ho2
        unfold lookupGallery
        rw [getPart_ensure]
        exact hU o2 ho2
      · unfold lookupGallery
        rw [getPart_ensure]
        exact hg

/-- Resolution succeeds and finds exactly the unique gallery with that
id, whenever the hint is absent, falsy, or points at the right owner. -/
theorem resolveGalleryCtx_found (st : St) (gid ro : String) (g : Gallery) (hint : Option String)
    (hgid : gid ≠ "")
    (hU : ∀ o2, o2 ≠ ro → lookupGallery st o2 gid = none)
    (hg : lookupGallery st ro gid = some g)
    (hhint : hint = none ∨ hint = some "" ∨ hint = some ro) :
    (resolveGalleryCtx st gid hint).1 = some (ro, g) := by
  have hmem : ro ∈ keys st.userData := mem_keys_userData_of_lookupGallery hg
  unfold resolveGalleryCtx
  simp only [hgid, ite_false, if_neg]
  rcases hhint with rfl | rfl | rfl
  · exact scanGalleries_found gid ro g _ st hU hg hmem
  · simp only [if_pos, ite_true]
    exact scanGalleries_found gid ro g _ st hU hg hmem
  · by_cases hro : ro = ""
    · simp only [hro, if_pos, ite_true]
      rw [← hro]
      exact scanGalleries_found gid ro g _ st hU hg hmem
    · simp only [hro, if_neg, ite_false]
      have hl : alookup gid (getPart (ensureUserData st ro) ro).galleriesD = some g := by
        rw [getPart_ensure]; exact hg
      rw [hl]

/-- A present, already-normalized partition survives a resolution scan
untouched. -/
theorem scanGalleries_userData_fixed (gid : String) (ks : List String) :
    ∀ (st : St) (a : String) (q : RawPartition), alookup a st.userData = some q → q.norm = q →
      alookup a ((scanGalleries gid ks st).2).userData = some q := by
  induction ks with
  | nil => intro st a q hq _; exact hq
  | cons k ks ih =>
    intro st a q hq hnorm
    simp only [scanGalleries]
    have hq1 : alookup a (ensureUserData st k).userData = some q := by
      unfold ensureUserData
      by_cases hk : a = k
      · subst hk
        rw [hq]
        simp only [Option.getD_some]
        rw [alookup_aset_self, hnorm]
      · rw [alookup_aset_ne hk]
        exact hq
    cases hl : alookup gid (getPart (ensureUserData st k) k).galleriesD with
    | some g => simp only [hl]; exact hq1
    | none => simp only [hl]; exact ih (ensureUserData st k) a q hq1 hnorm

theorem scanPosts_userData_fixed (pid : String) (ks : List String) :
    ∀ (st : St) (a : String) (q : RawPartition), alookup a st.userData = some q → q.norm = q →
      alookup a ((scanPosts pid ks st).2).userData = some q := by
  induction ks with
  | nil => intro st a q hq _; exact hq
  | cons k ks ih =>
    intro st a q hq hnorm
    simp only [scanPosts]
    have hq1 : alookup a (ensureUserData st k).userData = some q := by
      unfold ensureUserData
      by_cases hk : a = k
      · subst hk
        rw [hq]
        simp only [Option.getD_some]
        rw [alookup_aset_self, hnorm]
      · rw [alookup_aset_ne hk]
        exact hq
    cases hl : alookup pid (getPart (ensureUserData st k) k).postsD with
    | some p => simp only [hl]; exact hq1
    | none => simp only [hl]; exact ih (ensureUserData st k) a q hq1 hnorm

theorem listPostsScan_userData_fixed (gOwner gid : String) (incl : Bool) (ks : List String) :
    ∀ (st : St) (a : String) (q : RawPartition), alookup a st.userData = some q → q.norm = q →
      alookup a ((listPostsScan gOwner gid incl ks st).2).userData = some q := by
  induction ks with
  | nil => intro st a q hq _; exact hq
  | cons k ks ih =>
    intro st a q hq hnorm
    simp only [listPostsScan]
    have hq1 : alookup a (ensureUserData st k).userData = some q := by
      unfold ensureUserData
      by_cases hk : a = k
      · subst hk
        rw [hq]
        simp only [Option.getD_some]
        rw [alookup_aset_self, hnorm]
      · rw [alookup_aset_ne hk]
        exact hq
    exact ih (ensureUserData st k) a q hq1 hnorm

/-- The listing loop normalizes every partition it scans. -/
theorem listPostsScan_userData_mem (gOwner gid : String) (incl : Bool) (ks : List String) :
    ∀ (st : St) (a : String) (part : RawPartition), a ∈ ks →
      alookup a st.userData = some part →
      alookup a ((listPostsScan gOwner gid incl ks st).2).userData = some part.norm := by
  induction ks with
  | nil => intro st a part hmem _; simp at hmem
  | cons k ks ih =>
    intro st a part hmem hq
    simp only [listPostsScan]
    by_cases hk : a = k
    · subst hk
      have hq1 : alookup a (ensureUserData st a).userData = some part.norm := by
        unfold ensureUserData
        rw [hq]
        simp only [Option.getD_some]
        rw [alookup_aset_self]
      exact listPostsScan_userData_fixed gOwner gid incl ks (ensureUserData st a) a part.norm
        hq1 (rawPartitionNorm_idem part)
    · have hmem2 : a ∈ ks := by
        rcases List.mem_cons.mp hmem with h | h
        · exact absurd h hk
        · exact h
      have hq1 : alookup a (ensureUserData st k).userData = some part := by
        unfold ensureUserData
        rw [alookup_aset_ne hk]
        exact hq
      exact ih (ensureUserData st k) a part hmem2 hq1

/-- A resolution called with a hint naming no existing partition
creates that partition, filled with the defaults. -/
theorem resolveGalleryCtx_creates (st : St) (gid h : String)
    (hgid : gid ≠ "") (hh : h ≠ "") (habs : alookup h st.userData = none) :
    alookup h ((resolveGalleryCtx st gid (some h)).2).userData = some defaultPartition := by
  unfold resolveGalleryCtx
  rw [if_neg hgid]
  simp only []
  rw [if_neg hh]
  have h1 : alookup h (ensureUserData st h).userData = some defaultPartition := by
    unfold ensureUserData
    rw [habs]
    simp only [Option.getD_none]
    rw [alookup_aset_self]
    rfl
  have hgal : alookup gid (getPart (ensureUserData st h) h).galleriesD = none := by
    rw [getPart_ensure]
    unfold getPart
    rw [habs]
    rfl
  simp only [hgal]
  exact scanGalleries_userData_fixed gid _ (ensureUserData st h) h defaultPartition h1
    (rawPartitionNorm_idem rawEmpty)

theorem resolvePostCtx_creates (st : St) (pid h : String)
    (hpid : pid ≠ "") (hh : h ≠ "") (habs : alookup h st.userData = none) :
    alookup h ((resolvePostCtx st pid (some h)).2).userData = some defaultPartition := by
  unfold resolvePostCtx
  rw [if_neg hpid]
  simp only []
  rw [if_neg hh]
  have h1 : alookup h (ensureUserData st h).userData = some defaultPartition := by
    unfold ensureUserData
    rw [habs]
    simp only [Option.getD_none]
    rw [alookup_aset_self]
    rfl
  have hpost : alookup pid (getPart (ensureUserData st h) h).postsD = none := by
    rw [getPart_ensure]
    unfold getPart
    rw [habs]
    rfl
  simp only [hpost]
  exact scanPosts_userData_fixed pid _ (ensureUserData st h) h defaultPartition h1
    (rawPartitionNorm_idem rawEmpty)

/-! ### Accessor-level consequences -/

theorem lookupPost_mapAllPosts (f : String → Post → Post) (st : St) (aid pid : String) :
    lookupPost (mapAllPosts f st) aid pid = (lookupPost st aid pid).map (f aid) := by
  unfold lookupPost
  rw [getPart_mapAllPosts]
  show alookup pid ((getPart st aid).postsD.map fun kv => (kv.1, f aid kv.2)) = _
  exact alookup_mapv (f aid) pid _

theorem galleriesD_mapAllPosts (f : String → Post → Post) (st : St) (a : String) :
    (getPart (mapAllPosts f st) a).galleriesD = (getPart st a).galleriesD := by
  rw [getPart_mapAllPosts]; rfl

theorem commentsD_mapAllPosts (f : String → Post → Post) (st : St) (a : String) :
    (getPart (mapAllPosts f st) a).commentsD = (getPart st a).commentsD := by
  rw [getPart_mapAllPosts]; rfl

theorem postsD_setGalleryIn (st : St) (o gid : String) (g : Gallery) (a : String) :
    (getPart (setGalleryIn st o gid g) a).postsD = (getPart st a).postsD := by
  by_cases h : a = o
  · subst h; rw [getPart_setGalleryIn_self]; rfl
  · rw [getPart_setGalleryIn_ne st h]

theorem commentsD_setGalleryIn (st : St) (o gid : String) (g : Gallery) (a : String) :
    (getPart (setGalleryIn st o gid g) a).commentsD = (getPart st a).commentsD := by
  by_cases h : a = o
  · subst h; rw [getPart_setGalleryIn_self]; rfl
  · rw [getPart_setGalleryIn_ne st h]

theorem galleriesD_setPostIn (st : St) (aid pid : String) (p : Post) (a : String) :
    (getPart (setPostIn st aid pid p) a).galleriesD = (getPart st a).galleriesD := by
  by_cases h : a = aid
  · subst h; rw [getPart_setPostIn_self]; rfl
  · rw [getPart_setPostIn_ne st h]

theorem commentsD_setPostIn (st : St) (aid pid : String) (p : Post) (a : String) :
    (getPart (setPostIn st aid pid p) a).commentsD = (getPart st a).commentsD := by
  by_cases h : a = aid
  · subst h; rw [getPart_setPostIn_self]; rfl
  · rw [getPart_setPostIn_ne st h]

theorem galleriesD_setCommentIn (st : St) (aid cid : String) (c : Comment) (a : String) :
    (getPart (setCommentIn st aid cid c) a).galleriesD = (getPart st a).galleriesD := by
  by_cases h : a = aid
  · subst h; rw [getPart_setCommentIn_self]; rfl
  · rw [getPart_setCommentIn_ne st h]

theorem postsD_setCommentIn (st : St) (aid cid : String) (c : Comment) (a : String) :
    (getPart (setCommentIn st aid cid c) a).postsD = (getPart st a).postsD := by
  by_cases h : a = aid
  · subst h; rw [getPart_setCommentIn_self]; rfl
  · rw [getPart_setCommentIn_ne st h]

theorem postsD_setPostIn (st : St) (aid pid : String) (p : Post) (a : String) :
    (getPart (setPostIn st aid pid p) a).postsD =
      if a = aid then aset pid p (getPart st aid).postsD else (getPart st a).postsD := by
  by_cases h : a = aid
  · subst h; rw [getPart_setPostIn_self, if_pos rfl]; rfl
  · rw [getPart_setPostIn_ne st h, if_neg h]

theorem galleriesD_setGalleryIn (st : St) (o gid : String) (g : Gallery) (a : String) :
    (getPart (setGalleryIn st o gid g) a).galleriesD =
      if a = o then aset gid g (getPart st o).galleriesD else (getPart st a).galleriesD := by
  by_cases h : a = o
  · subst h; rw [getPart_setGalleryIn_self, if_pos rfl]; rfl
  · rw [getPart_setGalleryIn_ne st h, if_neg h]

theorem commentsD_setCommentIn (st : St) (aid cid : String) (c : Comment) (a : String) :
    (getPart (setCommentIn st aid cid c) a).commentsD =
      if a = aid then aset cid c (getPart st aid).commentsD else (getPart st a).commentsD := by
  by_cases h : a = aid
  · subst h; rw [getPart_setCommentIn_self, if_pos rfl]; rfl
  · rw [getPart_setCommentIn_ne st h, if_neg h]

theorem postsD_ensure (st : St) (u a : String) :
    (getPart (ensureUserData st u) a).postsD = (getPart st a).postsD := by
  rw [getPart_ensure]

theorem galleriesD_ensure (st : St) (u a : String) :
    (getPart (ensureUserData st u) a).galleriesD = (getPart st a).galleriesD := by
  rw [getPart_ensure]

theorem commentsD_ensure (st : St) (u a : String) :
    (getPart (ensureUserData st u) a).commentsD = (getPart st a).commentsD := by
  rw [getPart_ensure]

theorem users_resolvePostCtx (st : St) (pid : String) (hint : Option String) :
    ((resolvePostCtx st pid hint).2).users = st.users := by
  unfold resolvePostCtx
  by_cases hg : pid = ""
  · simp [hg]
  · simp only [hg, if_neg, ite_false]
    cases hint with
    | none => exact users_scanPosts _ _ _
    | some h =>
      by_cases hh : h = ""
      · simp only [hh, if_pos, ite_true]
        exact users_scanPosts _ _ _
      · simp only [hh, if_neg, ite_false]
        cases hl : alookup pid (getPart (ensureUserData st h) h).postsD with
        | some p => simp [hl]
        | none =>
          simp only [hl]
          rw [users_scanPosts]
          rfl

theorem galleriesD_purgeCommentsStage (pids : List String) (st : St) (a : String) :
    (getPart (purgeCommentsStage pids st) a).galleriesD = (getPart st a).galleriesD := by
  rw [getPart_purgeCommentsStage]; rfl

theorem postsD_purgeCommentsStage (pids : List String) (st : St) (a : String) :
    (getPart (purgeCommentsStage pids st) a).postsD = (getPart st a).postsD := by
  rw [getPart_purgeCommentsStage]; rfl

theorem commentsD_purgeCommentsStage (pids : List String) (st : St) (a : String) :
    (getPart (purgeCommentsStage pids st) a).commentsD
      = (getPart st a).commentsD.filter fun kv => !(pids.contains kv.2.postId) := by
  rw [getPart_purgeCommentsStage]; rfl

theorem galleriesD_purgePostsStage (o gid : String) (st : St) (a : String) :
    (getPart (purgePostsStage o gid st) a).galleriesD = (getPart st a).galleriesD := by
  rw [getPart_purgePostsStage]; rfl

theorem commentsD_purgePostsStage (o gid : String) (st : St) (a : String) :
    (getPart (purgePostsStage o gid st) a).commentsD = (getPart st a).commentsD := by
  rw [getPart_purgePostsStage]; rfl

theorem postsD_purgePostsStage (o gid : String) (st : St) (a : String) :
    (getPart (purgePostsStage o gid st) a).postsD
      = purgePostsFrom o gid a (getPart st a).postsD := by
  rw [getPart_purgePostsStage]; rfl

theorem galleriesD_dropGalleryStage (o gid : String) (st : St) (a : String) :
    (getPart (dropGalleryStage o gid st) a).galleriesD =
      if a = o then aerase gid (getPart st o).galleriesD else (getPart st a).galleriesD := by
  by_cases h : a = o
  · subst h; rw [getPart_dropGalleryStage_self, if_pos rfl]; rfl
  · rw [getPart_dropGalleryStage_ne st h, if_neg h]

theorem postsD_dropGalleryStage (o gid : String) (st : St) (a : String) :
    (getPart (dropGalleryStage o gid st) a).postsD = (getPart st a).postsD := by
  by_cases h : a = o
  · subst h; rw [getPart_dropGalleryStage_self]; rfl
  · rw [getPart_dropGalleryStage_ne st h]

theorem commentsD_dropGalleryStage (o gid : String) (st : St) (a : String) :
    (getPart (dropGalleryStage o gid st) a).commentsD = (getPart st a).commentsD := by
  by_cases h : a = o
  · subst h; rw [getPart_dropGalleryStage_self]; rfl
  · rw [getPart_dropGalleryStage_ne st h]

theorem commentsD_purgePostCommentsStage (pid : String) (st : St) (a : String) :
    (getPart (purgePostCommentsStage pid st) a).commentsD
      = (getPart st a).commentsD.filter fun kv => !(kv.2.postId == pid) := by
  rw [getPart_purgePostCommentsStage]; rfl

theorem postsD_purgePostCommentsStage (pid : String) (st : St) (a : String) :
    (getPart (purgePostCommentsStage pid st) a).postsD = (getPart st a).postsD := by
  rw [getPart_purgePostCommentsStage]; rfl

theorem galleriesD_purgePostCommentsStage (pid : String) (st : St) (a : String) :
    (getPart (purgePostCommentsStage pid st) a).galleriesD = (getPart st a).galleriesD := by
  rw [getPart_purgePostCommentsStage]; rfl

theorem postsD_dropPostStage (aid pid : String) (st : St) (a : String) :
    (getPart (dropPostStage aid pid st) a).postsD =
      if a = aid then aerase pid (getPart st aid).postsD else (getPart st a).postsD := by
  by_cases h : a = aid
  · subst h; rw [getPart_dropPostStage_self, if_pos rfl]; rfl
  · rw [getPart_dropPostStage_ne st h, if_neg h]

theorem galleriesD_dropPostStage (aid pid : String) (st : St) (a : String) :
    (getPart (dropPostStage aid pid st) a).galleriesD = (getPart st a).galleriesD := by
  by_cases h : a = aid
  · subst h; rw [getPart_dropPostStage_self]; rfl
  · rw [getPart_dropPostStage_ne st h]

theorem commentsD_dropPostStage (aid pid : String) (st : St) (a : String) :
    (getPart (dropPostStage aid pid st) a).commentsD = (getPart st a).commentsD := by
  by_cases h : a = aid
  · subst h; rw [getPart_dropPostStage_self]; rfl
  · rw [getPart_dropPostStage_ne st h]

theorem mem_userData_of_lookupPost {st : St} {a pid : String} {p : Post}
    (hp : lookupPost st a pid = some p) :
    ∃ part, alookup a st.userData = some part ∧ (pid, p) ∈ part.postsD := by
  unfold lookupPost getPart at hp
  cases hl : alookup a st.userData with
  | none =>
    rw [hl] at hp
    simp [rawEmpty, RawPartition.norm, RawPartition.postsD, alookup] at hp
  | some part =>
    rw [hl] at hp
    refine ⟨part, rfl, ?_⟩
    rw [show (some part).getD rawEmpty = part from rfl] at hp
    rw [norm_postsD] at hp
    exact mem_of_alookup hp

/-- The id of every post matching the purged gallery is among the
collected ids. -/
theorem mem_purgeMatchedIds {st : St} {o gid a pid : String} {p : Post}
    (hp : lookupPost st a pid = some p) (hm : postMatches a o gid p = true) :
    p.id ∈ purgeMatchedIds o gid st := by
  obtain ⟨part, hpart, hmem⟩ := mem_userData_of_lookupPost hp
  unfold purgeMatchedIds
  refine List.mem_flatMap.mpr ⟨(a, part), mem_of_alookup hpart, ?_⟩
  refine List.mem_map.mpr ⟨(pid, p), List.mem_filter.mpr ⟨?_, hm⟩, rfl⟩
  rw [norm_postsD]
  exact hmem

theorem mem_userData_of_lookupGallery {st : St} {o gid : String} {g : Gallery}
    (hg : lookupGallery st o gid = some g) :
    ∃ part, alookup o st.userData = some part ∧ (gid, g) ∈ part.galleriesD := by
  unfold lookupGallery getPart at hg
  cases hl : alookup o st.userData with
  | none =>
    rw [hl] at hg
    simp [rawEmpty, RawPartition.norm, RawPartition.galleriesD, alookup] at hg
  | some part =>
    rw [hl] at hg
    refine ⟨part, rfl, ?_⟩
    rw [show (some part).getD rawEmpty = part from rfl, norm_galleriesD] at hg
    exact mem_of_alookup hg

theorem galleriesTombstoned_pointwise {st : St} {gid : String}
    (h : ∀ e ∈ st.userData, ∀ kv ∈ (e.2 : RawPartition).galleriesD,
      kv.1 = gid → (kv.2 : Gallery).deletedAt.isSome = true) :
    ∀ o2 g2, lookupGallery st o2 gid = some g2 → g2.deletedAt.isSome = true := by
  intro o2 g2 hl
  obtain ⟨part, hpart, hmem⟩ := mem_userData_of_lookupGallery hl
  exact h (o2, part) (mem_of_alookup hpart) (gid, g2) hmem rfl

theorem getPart_listPostsScan (gOwner gid : String) (incl : Bool) (ks : List String) :
    ∀ (st : St) (a : String), getPart ((listPostsScan gOwner gid incl ks st).2) a = getPart st a := by
  induction ks with
  | nil => intro st a; rfl
  | cons k ks ih =>
    intro st a
    simp only [listPostsScan]
    rw [ih, getPart_ensure]

theorem keys_foldl_aerase_nodup {β : Type} (ids : List String) {l : List (String × β)}
    (h : (keys l).Nodup) : (keys (ids.foldl (fun acc i => aerase i acc) l)).Nodup := by
  induction ids generalizing l with
  | nil => exact h
  | cons i ids ih =>
    simp only [List.foldl_cons]
    exact ih (keys_aerase_nodup i h)

/-! ### Invariant transfer -/

theorem inv_of_pg_eq {st st2 : St}
    (hP : ∀ a, (getPart st2 a).postsD = (getPart st a).postsD)
    (hG : ∀ a, (getPart st2 a).galleriesD = (getPart st a).galleriesD)
    (h : Inv st) : Inv st2 := by
  obtain ⟨hF, hU, hK, hN⟩ := h
  refine ⟨?_, ?_, ?_, ?_⟩
  · intro aid pid p hp hflag
    rw [show lookupPost st2 aid pid = lookupPost st aid pid from by
      unfold lookupPost; rw [hP]] at hp
    obtain ⟨h1, g, h2, h3⟩ := hF aid pid p hp hflag
    refine ⟨h1, g, ?_, h3⟩
    unfold lookupGallery
    rw [hG]
    exact h2
  · intro o1 o2 gid g1 g2 h1 h2
    unfold lookupGallery at h1 h2
    rw [hG] at h1 h2
    exact hU o1 o2 gid g1 g2 h1 h2
  · intro aid pid p hp
    unfold lookupPost at hp
    rw [hP] at hp
    exact hK aid pid p hp
  · intro a
    rw [show (getPart st2 a).postsD = _ from hP a, show (getPart st2 a).galleriesD = _ from hG a]
    exact hN a

theorem flagPres_of_posts_eq {st st2 : St}
    (hP : ∀ a, (getPart st2 a).postsD = (getPart st a).postsD) : FlagPres st st2 := by
  intro aid pid p p2 hp hp2 hflag
  have he : lookupPost st2 aid pid = lookupPost st aid pid := by
    unfold lookupPost; rw [hP]
  rw [he, hp] at hp2
  injection hp2 with h
  rw [← h]
  exact hflag

/-- Comment operations, auth, queries and `ensureUserData` never touch
stored posts or galleries. -/
theorem pg_eq_createComment (st : St) (actor authorId postId cid now : String)
    (text : Option String) :
    (∀ a, (getPart (createComment st actor authorId postId cid now text).2 a).postsD
        = (getPart st a).postsD) ∧
    (∀ a, (getPart (createComment st actor authorId postId cid now text).2 a).galleriesD
        = (getPart st a).galleriesD) := by
  unfold createComment
  by_cases hcm : canManage st actor authorId = true
  · rw [if_pos hcm]
    cases hres : (resolvePostCtx st postId none).1 with
    | none =>
      simp only [hres]
      constructor <;> intro a
      · rw [show getPart ((resolvePostCtx st postId none).2) a = getPart st a from
          getPart_resolvePostCtx st postId none a]
      · rw [show getPart ((resolvePostCtx st postId none).2) a = getPart st a from
          getPart_resolvePostCtx st postId none a]
    | some ap =>
      obtain ⟨a0, p⟩ := ap
      by_cases hdel : p.deletedAt.isSome = true
      · simp only [hres]
        rw [if_pos hdel]
        constructor <;> intro a
        · rw [show getPart ((resolvePostCtx st postId none).2) a = getPart st a from
            getPart_resolvePostCtx st postId none a]
        · rw [show getPart ((resolvePostCtx st postId none).2) a = getPart st a from
            getPart_resolvePostCtx st postId none a]
      · simp only [hres]
        rw [if_neg hdel]
        constructor <;> intro a
        · rw [postsD_setCommentIn, postsD_ensure, getPart_resolvePostCtx]
        · rw [galleriesD_setCommentIn, galleriesD_ensure, getPart_resolvePostCtx]
  · rw [if_neg hcm]
    exact ⟨fun a => by trivial, fun a => by trivial⟩

theorem pg_eq_updateComment (st : St) (actor authorId cid now : String) (text : Option String) :
    (∀ a, (getPart (updateComment st actor authorId cid now text).2 a).postsD
        = (getPart st a).postsD) ∧
    (∀ a, (getPart (updateComment st actor authorId cid now text).2 a).galleriesD
        = (getPart st a).galleriesD) := by
  unfold updateComment
  by_cases hcm : canManage st actor authorId = true
  · rw [if_pos hcm]
    cases hl : alookup cid (getPart (ensureUserData st authorId) authorId).commentsD with
    | none =>
      simp only [hl]
      exact ⟨fun a => postsD_ensure st authorId a, fun a => galleriesD_ensure st authorId a⟩
    | some c =>
      by_cases hdel : c.deletedAt.isSome = true
      · simp only [hl]
        rw [if_pos hdel]
        exact ⟨fun a => postsD_ensure st authorId a, fun a => galleriesD_ensure st authorId a⟩
      · simp only [hl]
        rw [if_neg hdel]
        constructor <;> intro a
        · rw [postsD_setCommentIn, postsD_ensure]
        · rw [galleriesD_setCommentIn, galleriesD_ensure]
  · rw [if_neg hcm]
    exact ⟨fun a => by trivial, fun a => by trivial⟩

theorem pg_eq_deleteComment (st : St) (actor authorId cid now : String) :
    (∀ a, (getPart (deleteCommentSoft st actor authorId cid now).2 a).postsD
        = (getPart st a).postsD) ∧
    (∀ a, (getPart (deleteCommentSoft st actor authorId cid now).2 a).galleriesD
        = (getPart st a).galleriesD) := by
  unfold deleteCommentSoft
  by_cases hcm : canManage st actor authorId = true
  · rw [if_pos hcm]
    cases hl : alookup cid (getPart (ensureUserData st authorId) authorId).commentsD with
    | none =>
      simp only [hl]
      exact ⟨fun a => postsD_ensure st authorId a, fun a => galleriesD_ensure st authorId a⟩
    | some c =>
      by_cases hdel : c.deletedAt.isSome = true
      · simp only [hl]
        rw [if_pos hdel]
        exact ⟨fun a => postsD_ensure st authorId a, fun a => galleriesD_ensure st authorId a⟩
      · simp only [hl]
        rw [if_neg hdel]
        constructor <;> intro a
        · rw [postsD_setCommentIn, postsD_ensure]
        · rw [galleriesD_setCommentIn, galleriesD_ensure]
  · rw [if_neg hcm]
    exact ⟨fun a => by trivial, fun a => by trivial⟩

theorem pg_eq_signup (H : String → String → String) (st : St)
    (username password salt uid now : String) :
    (∀ a, (getPart (signup H st username password salt uid now).2 a).postsD
        = (getPart st a).postsD) ∧
    (∀ a, (getPart (signup H st username password salt uid now).2 a).galleriesD
        = (getPart st a).galleriesD) := by
  unfold signup
  by_cases hv : isValidUsername username = true
  · by_cases hdup : truthy (alookup username st.usernameIndex) = true
    · simp only [hv, Bool.not_true, Bool.false_eq_true, if_false, ite_false, hdup, if_true,
        ite_true]
      exact ⟨fun a => by trivial, fun a => by trivial⟩
    · simp only [hv, Bool.not_true, Bool.false_eq_true, if_false, ite_false,
        Bool.not_eq_true] at hdup ⊢
      simp only [hdup, Bool.false_eq_true, if_false, ite_false]
      constructor <;> intro a
      · rw [postsD_ensure]
        rfl
      · rw [galleriesD_ensure]
        rfl
  · have hv2 : isValidUsername username = false := by
      cases h : isValidUsername username
      · rfl
      · exact absurd h hv
    simp only [hv2, Bool.not_false, if_true, ite_true]
    exact ⟨fun a => by trivial, fun a => by trivial⟩

theorem pg_eq_login (H : String → String → String) (st : St) (username password : String) :
    (∀ a, (getPart (login H st username password).2 a).postsD = (getPart st a).postsD) ∧
    (∀ a, (getPart (login H st username password).2 a).galleriesD
        = (getPart st a).galleriesD) := by
  unfold login
  cases hu : alookup username st.usernameIndex with
  | none => exact ⟨fun a => by trivial, fun a => by trivial⟩
  | some uid =>
    by_cases he : uid = ""
    · simp only [he, if_pos, ite_true]
      exact ⟨fun a => by trivial, fun a => by trivial⟩
    · simp only [he, if_neg, ite_false]
      cases hus : alookup uid st.users with
      | none => exact ⟨fun a => by trivial, fun a => by trivial⟩
      | some user =>
        simp only []
        by_cases hh : H password user.saltB64 ≠ user.hashB64
        · rw [if_pos hh]
          exact ⟨fun a => by trivial, fun a => by trivial⟩
        · rw [if_neg hh]
          constructor <;> intro a
          · rw [postsD_ensure]
          · rw [galleriesD_ensure]

/-! ### Shapes of the successful lifecycle operations -/

theorem deleteGallerySoft_shape (st : St) (actor ownerId gid now : String) (g : Gallery)
    (hperm : canManage st actor ownerId = true)
    (hg : lookupGallery st ownerId gid = some g)
    (hdel : g.deletedAt = none) :
    deleteGallerySoft st actor ownerId gid now =
      (Res.ok, mapAllPosts (delCascade ownerId gid now)
        (setGalleryIn (ensureUserData st ownerId) ownerId gid
          { g with deletedAt := some now, updatedAt := now })) := by
  have hg1 : alookup gid (getPart (ensureUserData st ownerId) ownerId).galleriesD = some g := by
    rw [getPart_ensure]; exact hg
  unfold deleteGallerySoft
  rw [hperm, if_pos rfl]
  simp only [hg1]
  simp [hdel]

theorem restoreGallery_shape (st : St) (actor ownerId gid now : String) (g : Gallery)
    (hperm : canManage st actor ownerId = true)
    (hg : lookupGallery st ownerId gid = some g)
    (hdel : g.deletedAt.isSome = true) :
    restoreGallery st actor ownerId gid now =
      (Res.ok, mapAllPosts (restCascade ownerId gid now)
        (setGalleryIn (ensureUserData st ownerId) ownerId gid
          { g with deletedAt := none, updatedAt := now })) := by
  have hg1 : alookup gid (getPart (ensureUserData st ownerId) ownerId).galleriesD = some g := by
    rw [getPart_ensure]; exact hg
  unfold restoreGallery
  rw [hperm, if_pos rfl]
  simp only [hg1]
  have hnone : g.deletedAt.isNone = false := by
    cases h : g.deletedAt <;> simp [h] at hdel ⊢
  simp [hnone]

theorem purgeGallery_shape (st : St) (actor ownerId gid : String) (g : Gallery)
    (hperm : canManage st actor ownerId = true)
    (hg : lookupGallery st ownerId gid = some g) :
    purgeGallery st actor ownerId gid =
      (Res.ok, dropGalleryStage ownerId gid (purgePostsStage ownerId gid
        (purgeCommentsStage (purgeMatchedIds ownerId gid (ensureUserData st ownerId))
          (ensureUserData st ownerId)))) := by
  have hg1 : alookup gid (getPart (ensureUserData st ownerId) ownerId).galleriesD = some g := by
    rw [getPart_ensure]; exact hg
  unfold purgeGallery
  rw [hperm, if_pos rfl]
  simp only [hg1]

theorem purgePost_shape (st : St) (actor authorId pid : String) (p : Post)
    (hperm : canManage st actor authorId = true)
    (hp : lookupPost st authorId pid = some p) :
    purgePost st actor authorId pid =
      (Res.ok, dropPostStage authorId pid
        (purgePostCommentsStage pid (ensureUserData st authorId))) := by
  have hp1 : alookup pid (getPart (ensureUserData st authorId) authorId).postsD = some p := by
    rw [getPart_ensure]; exact hp
  unfold purgePost
  rw [hperm, if_pos rfl]
  simp only [hp1]

theorem restorePost_shape (st : St) (actor authorId pid now : String) (p : Post)
    (hperm : canManage st actor authorId = true)
    (hp : lookupPost st authorId pid = some p)
    (hdel : p.deletedAt.isSome = true) :
    restorePost st actor authorId pid now =
      (match (resolveGalleryCtx (ensureUserData st authorId) p.galleryId p.galleryOwnerId).1 with
       | none => (Res.parentUnavailable,
           (resolveGalleryCtx (ensureUserData st authorId) p.galleryId p.galleryOwnerId).2)
       | some (_o, g) =>
         if g.deletedAt.isSome then (Res.parentUnavailable,
           (resolveGalleryCtx (ensureUserData st authorId) p.galleryId p.galleryOwnerId).2)
         else (Res.ok, setPostIn
           (resolveGalleryCtx (ensureUserData st authorId) p.galleryId p.galleryOwnerId).2
           authorId pid
           { p with deletedAt := none, deletedByGallery := false, updatedAt := now })) := by
  have hp1 : alookup pid (getPart (ensureUserData st authorId) authorId).postsD = some p := by
    rw [getPart_ensure]; exact hp
  have hdeln : p.deletedAt.isNone = false := by
    cases h : p.deletedAt <;> simp [h] at hdel ⊢
  unfold restorePost
  rw [hperm, if_pos rfl]
  simp only [hp1, hdeln, Bool.false_eq_true, if_false, ite_false]

/-! ### Pointwise consequences of stored-document well-formedness -/

theorem keysOK_pointwise {st : St}
    (h : ∀ e ∈ st.userData,
      (keys (e.2 : RawPartition).postsD).Nodup ∧ (keys e.2.galleriesD).Nodup)
    (a : String) :
    (keys (getPart st a).postsD).Nodup ∧ (keys (getPart st a).galleriesD).Nodup := by
  cases hl : alookup a st.userData with
  | none =>
    unfold getPart
    rw [hl]
    exact ⟨List.nodup_nil, List.nodup_nil⟩
  | some part =>
    unfold getPart
    rw [hl]
    have h2 := h (a, part) (mem_of_alookup hl)
    simp only [Option.getD_some, norm_postsD, norm_galleriesD]
    exact h2

theorem postIds_pointwise {st : St}
    (h : ∀ e ∈ st.userData, ∀ kv ∈ (e.2 : RawPartition).postsD, (kv.2 : Post).id = kv.1)
    {a pid : String} {p : Post} (hp : lookupPost st a pid = some p) : p.id = pid := by
  obtain ⟨part, hpart, hmem⟩ := mem_userData_of_lookupPost hp
  exact h (a, part) (mem_of_alookup hpart) (pid, p) hmem

theorem lookupGallery_none_pointwise {st : St} {ownerId gid : String}
    (h : ∀ e ∈ st.userData, e.1 ≠ ownerId → alookup gid (e.2 : RawPartition).galleriesD = none) :
    ∀ o2, o2 ≠ ownerId → lookupGallery st o2 gid = none := by
  intro o2 hne
  cases hl : alookup o2 st.userData with
  | none =>
    unfold lookupGallery getPart
    rw [hl]
    rfl
  | some part =>
    unfold lookupGallery getPart
    rw [hl]
    simp only [Option.getD_some, norm_galleriesD]
    exact h (o2, part) (mem_of_alookup hl) hne

/-! ### Further lookup transparency -/

theorem postsD_mapAllPosts (f : String → Post → Post) (st : St) (a : String) :
    (getPart (mapAllPosts f st) a).postsD
      = (getPart st a).postsD.map fun kv => (kv.1, f a kv.2) := by
  rw [getPart_mapAllPosts]
  rfl

theorem lookupPost_setGalleryIn (st : St) (o gid : String) (g : Gallery) (aid pid : String) :
    lookupPost (setGalleryIn st o gid g) aid pid = lookupPost st aid pid := by
  unfold lookupPost
  rw [postsD_setGalleryIn]

theorem lookupPost_ensure (st : St) (u aid pid : String) :
    lookupPost (ensureUserData st u) aid pid = lookupPost st aid pid := by
  unfold lookupPost
  rw [postsD_ensure]

theorem lookupGallery_ensure (st : St) (u o gid : String) :
    lookupGallery (ensureUserData st u) o gid = lookupGallery st o gid := by
  unfold lookupGallery
  rw [galleriesD_ensure]

theorem lookupGallery_setGalleryIn (st : St) (ownerId gid : String) (gNew : Gallery)
    (o x : String) :
    lookupGallery (setGalleryIn st ownerId gid gNew) o x =
      if o = ownerId then (if x = gid then some gNew else lookupGallery st ownerId x)
      else lookupGallery st o x := by
  unfold lookupGallery
  rw [galleriesD_setGalleryIn]
  by_cases ho : o = ownerId
  · rw [if_pos ho, if_pos ho]
    by_cases hx : x = gid
    · subst hx
      rw [alookup_aset_self, if_pos rfl]
    · rw [alookup_aset_ne hx, if_neg hx]
  · rw [if_neg ho, if_neg ho]

theorem delCascade_id (ownerId gid now aid : String) (p : Post) :
    (delCascade ownerId gid now aid p).id = p.id := by
  unfold delCascade
  split <;> rfl

theorem restCascade_id (ownerId gid now aid : String) (p : Post) :
    (restCascade ownerId gid now aid p).id = p.id := by
  unfold restCascade
  split <;> rfl

theorem alookup_purgePostsFrom {o gid aid x : String} {p2 : Post} {l : List (String × Post)}
    (hnd : (keys l).Nodup)
    (hids : ∀ kv ∈ l, (kv.2 : Post).id = kv.1)
    (h : alookup x (purgePostsFrom o gid aid l) = some p2) :
    alookup x l = some p2 ∧ postMatches aid o gid p2 = false := by
  unfold purgePostsFrom at h
  rw [alookup_foldl_aerase _ hnd] at h
  by_cases hmem : x ∈ ((l.filter fun kv => postMatches aid o gid kv.2).map fun kv => kv.2.id)
  · rw [if_pos hmem] at h
    cases h
  · rw [if_neg hmem] at h
    refine ⟨h, ?_⟩
    cases hpm : postMatches aid o gid p2 with
    | false => rfl
    | true =>
      exfalso
      apply hmem
      refine List.mem_map.mpr ⟨(x, p2), List.mem_filter.mpr ⟨mem_of_alookup h, hpm⟩, ?_⟩
      exact hids (x, p2) (mem_of_alookup h)

/-- A gallery id stored nowhere in the document is found nowhere. -/
theorem lookupGallery_none_all {st : St} {gid : String}
    (h : ∀ e ∈ st.userData, alookup gid (e.2 : RawPartition).galleriesD = none) :
    ∀ o, lookupGallery st o gid = none := by
  intro o
  cases hl : alookup o st.userData with
  | none =>
    unfold lookupGallery getPart
    rw [hl]
    rfl
  | some part =>
    unfold lookupGallery getPart
    rw [hl]
    simp only [Option.getD_some, norm_galleriesD]
    exact h (o, part) (mem_of_alookup hl)

theorem lookupPost_none_all {st : St} {pid : String}
    (h : ∀ e ∈ st.userData, alookup pid (e.2 : RawPartition).postsD = none) :
    ∀ a, lookupPost st a pid = none := by
  intro a
  cases hl : alookup a st.userData with
  | none =>
    unfold lookupPost getPart
    rw [hl]
    rfl
  | some part =>
    unfold lookupPost getPart
    rw [hl]
    simp only [Option.getD_some, norm_postsD]
    exact h (a, part) (mem_of_alookup hl)

theorem lookupComment_none_all {st : St} {cid : String}
    (h : ∀ e ∈ st.userData, alookup cid (e.2 : RawPartition).commentsD = none) :
    ∀ a, lookupComment st a cid = none := by
  intro a
  cases hl : alookup a st.userData with
  | none =>
    unfold lookupComment getPart
    rw [hl]
    rfl
  | some part =>
    unfold lookupComment getPart
    rw [hl]
    simp only [Option.getD_some, norm_commentsD]
    exact h (a, part) (mem_of_alookup hl)

/-! ### Invariant preservation building blocks -/

theorem inv_setGalleryIn_fresh (st : St) (ownerId gid : String) (gNew : Gallery)
    (hInv : Inv st) (hFr : ∀ o, lookupGallery st o gid = none) :
    Inv (setGalleryIn (ensureUserData st ownerId) ownerId gid gNew) := by
  obtain ⟨hF, hU, hK, hN⟩ := hInv
  have hPost : ∀ a, (getPart (setGalleryIn (ensureUserData st ownerId) ownerId gid gNew) a).postsD
      = (getPart st a).postsD := fun a => by rw [postsD_setGalleryIn, postsD_ensure]
  have hGal : ∀ a, (getPart (setGalleryIn (ensureUserData st ownerId) ownerId gid gNew) a).galleriesD
      = if a = ownerId then aset gid gNew (getPart st ownerId).galleriesD
        else (getPart st a).galleriesD := by
    intro a
    rw [galleriesD_setGalleryIn]
    by_cases h : a = ownerId
    · rw [if_pos h, if_pos h, galleriesD_ensure]
    · rw [if_neg h, if_neg h, galleriesD_ensure]
  have hchar : ∀ o x g2, lookupGallery (setGalleryIn (ensureUserData st ownerId) ownerId gid gNew)
      o x = some g2 → (o = ownerId ∧ x = gid) ∨ lookupGallery st o x = some g2 := by
    intro o x g2 hl
    unfold lookupGallery at hl
    rw [hGal] at hl
    by_cases ho : o = ownerId
    · rw [if_pos ho] at hl
      by_cases hx : x = gid
      · exact Or.inl ⟨ho, hx⟩
      · rw [alookup_aset_ne hx] at hl
        refine Or.inr ?_
        unfold lookupGallery
        rw [ho]
        exact hl
    · rw [if_neg ho] at hl
      exact Or.inr hl
  refine ⟨?_, ?_, ?_, ?_⟩
  · intro aid pid p hp hflag
    have hp2 : lookupPost st aid pid = some p := by
      unfold lookupPost at hp ⊢
      rw [hPost] at hp
      exact hp
    obtain ⟨h1, g0, h2, h3⟩ := hF aid pid p hp2 hflag
    refine ⟨h1, g0, ?_, h3⟩
    unfold lookupGallery
    rw [hGal]
    by_cases hro : resolvedOwner p aid = ownerId
    · rw [if_pos hro]
      have hxne : p.galleryId ≠ gid := by
        intro hx
        rw [hx, hFr (resolvedOwner p aid)] at h2
        cases h2
      rw [alookup_aset_ne hxne, ← hro]
      exact h2
    · rw [if_neg hro]
      exact h2
  · intro o1 o2 x g1 g2 h1 h2
    rcases hchar o1 x g1 h1 with ⟨ha, hb⟩ | hh1
    · rcases hchar o2 x g2 h2 with ⟨hc, _⟩ | hh2
      · rw [ha, hc]
      · rw [hb, hFr o2] at hh2
        cases hh2
    · rcases hchar o2 x g2 h2 with ⟨hc, hd⟩ | hh2
      · rw [hd, hFr o1] at hh1
        cases hh1
      · exact hU o1 o2 x g1 g2 hh1 hh2
  · intro aid pid p hp
    unfold lookupPost at hp
    rw [hPost] at hp
    exact hK aid pid p hp
  · intro a
    rw [hPost, hGal]
    refine ⟨(hN a).1, ?_⟩
    by_cases h : a = ownerId
    · rw [if_pos h]
      exact keys_aset_nodup gid gNew (hN ownerId).2
    · rw [if_neg h]
      exact (hN a).2

/-- Replacing (or inserting) a single post, in a base state whose posts
and galleries agree with `st`, preserves the invariant as long as the
new post is stored under its id and satisfies the flag condition. -/
theorem inv_setPostIn_generic (st stB : St) (authorId pid : String) (pNew : Post)
    (hP : ∀ a, (getPart stB a).postsD = (getPart st a).postsD)
    (hG : ∀ a, (getPart stB a).galleriesD = (getPart st a).galleriesD)
    (hInv : Inv st)
    (hid : pNew.id = pid)
    (hflag : pNew.deletedByGallery = true →
      pNew.deletedAt.isSome = true ∧
      ∃ g, lookupGallery st (resolvedOwner pNew authorId) pNew.galleryId = some g ∧
        g.deletedAt.isSome = true) :
    Inv (setPostIn stB authorId pid pNew) := by
  obtain ⟨hF, hU, hK, hN⟩ := hInv
  have hPost : ∀ a, (getPart (setPostIn stB authorId pid pNew) a).postsD
      = if a = authorId then aset pid pNew (getPart st authorId).postsD
        else (getPart st a).postsD := by
    intro a
    rw [postsD_setPostIn]
    by_cases h : a = authorId
    · rw [if_pos h, if_pos h, hP]
    · rw [if_neg h, if_neg h, hP]
  have hGal : ∀ a, (getPart (setPostIn stB authorId pid pNew) a).galleriesD
      = (getPart st a).galleriesD := fun a => by rw [galleriesD_setPostIn, hG]
  have hchar : ∀ aid x p2, lookupPost (setPostIn stB authorId pid pNew) aid x = some p2 →
      (aid = authorId ∧ x = pid ∧ p2 = pNew) ∨ lookupPost st aid x = some p2 := by
    intro aid x p2 hl
    unfold lookupPost at hl
    rw [hPost] at hl
    by_cases ha : aid = authorId
    · rw [if_pos ha] at hl
      by_cases hx : x = pid
      · subst hx
        rw [alookup_aset_self] at hl
        injection hl with h
        exact Or.inl ⟨ha, rfl, h.symm⟩
      · rw [alookup_aset_ne hx] at hl
        refine Or.inr ?_
        unfold lookupPost
        rw [ha]
        exact hl
    · rw [if_neg ha] at hl
      exact Or.inr hl
  refine ⟨?_, ?_, ?_, ?_⟩
  · intro aid x p2 hp hfl
    rcases hchar aid x p2 hp with ⟨ha, _, hc⟩ | hh
    · subst hc
      obtain ⟨h1, g0, h2, h3⟩ := hflag hfl
      refine ⟨h1, g0, ?_, h3⟩
      unfold lookupGallery
      rw [hGal, ha]
      exact h2
    · obtain ⟨h1, g0, h2, h3⟩ := hF aid x p2 hh hfl
      refine ⟨h1, g0, ?_, h3⟩
      unfold lookupGallery
      rw [hGal]
      exact h2
  · intro o1 o2 x g1 g2 h1 h2
    unfold lookupGallery at h1 h2
    rw [hGal] at h1 h2
    exact hU o1 o2 x g1 g2 h1 h2
  · intro aid x p2 hp
    rcases hchar aid x p2 hp with ⟨_, hb, hc⟩ | hh
    · rw [hc, hb]
      exact hid
    · exact hK aid x p2 hh
  · intro a
    rw [hPost, hGal]
    refine ⟨?_, (hN a).2⟩
    by_cases h : a = authorId
    · rw [if_pos h]
      exact keys_aset_nodup pid pNew (hN authorId).1
    · rw [if_neg h]
      exact (hN a).1

theorem flagPres_setPostIn_generic (st stB : St) (authorId pid : String) (pNew : Post)
    (hP : ∀ a, (getPart stB a).postsD = (getPart st a).postsD)
    (hpres : ∀ p, lookupPost st authorId pid = some p → p.deletedByGallery = true →
      pNew.deletedByGallery = true) :
    FlagPres st (setPostIn stB authorId pid pNew) := by
  intro aid x p p2 hp hp2 hfl
  have hPost : ∀ a, (getPart (setPostIn stB authorId pid pNew) a).postsD
      = if a = authorId then aset pid pNew (getPart st authorId).postsD
        else (getPart st a).postsD := by
    intro a
    rw [postsD_setPostIn]
    by_cases h : a = authorId
    · rw [if_pos h, if_pos h, hP]
    · rw [if_neg h, if_neg h, hP]
  unfold lookupPost at hp2
  rw [hPost] at hp2
  by_cases ha : aid = authorId
  · rw [if_pos ha] at hp2
    by_cases hx : x = pid
    · subst hx
      rw [alookup_aset_self] at hp2
      injection hp2 with h
      rw [← h]
      refine hpres p ?_ hfl
      rw [← ha]
      exact hp
    · rw [alookup_aset_ne hx] at hp2
      rw [← ha] at hp2
      rw [show lookupPost st aid x = alookup x (getPart st aid).postsD from rfl, hp2] at hp
      injection hp with h
      rw [h]
      exact hfl
  · rw [if_neg ha] at hp2
    rw [show lookupPost st aid x = alookup x (getPart st aid).postsD from rfl, hp2] at hp
    injection hp with h
    rw [h]
    exact hfl

/-- Replacing a gallery stored at (`ownerId`, `gid`) keeps gallery-id
uniqueness, post-key discipline and key nodup-ness. -/
theorem gupk_setGalleryIn (st : St) (ownerId gid : String) (gOld gNew : Gallery)
    (hInv : Inv st) (hOld : lookupGallery st ownerId gid = some gOld) :
    GalUnique (setGalleryIn (ensureUserData st ownerId) ownerId gid gNew) ∧
    PostKeyId (setGalleryIn (ensureUserData st ownerId) ownerId gid gNew) ∧
    KeysOK (setGalleryIn (ensureUserData st ownerId) ownerId gid gNew) := by
  obtain ⟨hF, hU, hK, hN⟩ := hInv
  refine ⟨?_, ?_, ?_⟩
  · intro o1 o2 x g1 g2 h1 h2
    rw [lookupGallery_setGalleryIn] at h1 h2
    by_cases h1o : o1 = ownerId
    · by_cases h2o : o2 = ownerId
      · rw [h1o, h2o]
      · rw [if_pos h1o] at h1
        rw [if_neg h2o, lookupGallery_ensure] at h2
        by_cases hx : x = gid
        · subst hx
          exact absurd (hU o2 ownerId x g2 gOld h2 hOld) h2o
        · rw [if_neg hx, lookupGallery_ensure] at h1
          rw [h1o]
          exact hU ownerId o2 x g1 g2 h1 h2
    · by_cases h2o : o2 = ownerId
      · rw [if_neg h1o, lookupGallery_ensure] at h1
        rw [if_pos h2o] at h2
        by_cases hx : x = gid
        · subst hx
          exact absurd (hU o1 ownerId x g1 gOld h1 hOld) h1o
        · rw [if_neg hx, lookupGallery_ensure] at h2
          rw [h2o]
          exact hU o1 ownerId x g1 g2 h1 h2
      · rw [if_neg h1o, lookupGallery_ensure] at h1
        rw [if_neg h2o, lookupGallery_ensure] at h2
        exact hU o1 o2 x g1 g2 h1 h2
  · intro aid pid p hp
    rw [lookupPost_setGalleryIn, lookupPost_ensure] at hp
    exact hK aid pid p hp
  · intro a
    constructor
    · rw [postsD_setGalleryIn, postsD_ensure]
      exact (hN a).1
    · simp only [galleriesD_setGalleryIn, galleriesD_ensure]
      by_cases h : a = ownerId
      · rw [if_pos h]
        exact keys_aset_nodup gid gNew (hN ownerId).2
      · rw [if_neg h]
        exact (hN a).2

/-- Replacing a stored gallery with one at least as tombstoned preserves
the whole invariant. -/
theorem inv_setGalleryIn_existing (st : St) (ownerId gid : String) (gOld gNew : Gallery)
    (hInv : Inv st) (hOld : lookupGallery st ownerId gid = some gOld)
    (hts : gOld.deletedAt.isSome = true → gNew.deletedAt.isSome = true) :
    Inv (setGalleryIn (ensureUserData st ownerId) ownerId gid gNew) := by
  obtain ⟨hU2, hK2, hN2⟩ := gupk_setGalleryIn st ownerId gid gOld gNew hInv hOld
  obtain ⟨hF, hU, hK, hN⟩ := hInv
  refine ⟨?_, hU2, hK2, hN2⟩
  intro aid pid p hp hfl
  rw [lookupPost_setGalleryIn, lookupPost_ensure] at hp
  obtain ⟨h1, g0, h2, h3⟩ := hF aid pid p hp hfl
  refine ⟨h1, ?_⟩
  rw [lookupGallery_setGalleryIn]
  by_cases hro : resolvedOwner p aid = ownerId
  · rw [if_pos hro]
    by_cases hgi : p.galleryId = gid
    · rw [if_pos hgi]
      refine ⟨gNew, rfl, ?_⟩
      apply hts
      rw [hro, hgi, hOld] at h2
      injection h2 with hh
      rw [hh]
      exact h3
    · rw [if_neg hgi, lookupGallery_ensure]
      refine ⟨g0, ?_, h3⟩
      rw [← hro]
      exact h2
  · rw [if_neg hro, lookupGallery_ensure]
    exact ⟨g0, h2, h3⟩

/-- A pointwise post rewrite over the whole document preserves the
invariant, provided every rewritten post satisfies the flag condition
against the base state's galleries. -/
theorem inv_mapAllPosts (stS : St) (f : String → Post → Post)
    (hU : GalUnique stS) (hKid : PostKeyId stS) (hN : KeysOK stS)
    (hid : ∀ aid p, (f aid p).id = p.id)
    (hflag : ∀ aid pid p, lookupPost stS aid pid = some p →
      (f aid p).deletedByGallery = true →
      (f aid p).deletedAt.isSome = true ∧
      ∃ g, lookupGallery stS (resolvedOwner (f aid p) aid) (f aid p).galleryId = some g ∧
        g.deletedAt.isSome = true) :
    Inv (mapAllPosts f stS) := by
  refine ⟨?_, ?_, ?_, ?_⟩
  · intro aid pid p2 hp2 hfl
    rw [lookupPost_mapAllPosts] at hp2
    cases hlp : lookupPost stS aid pid with
    | none =>
      rw [hlp] at hp2
      cases hp2
    | some p =>
      rw [hlp] at hp2
      have hp3 : some (f aid p) = some p2 := hp2
      injection hp3 with h
      rw [← h] at hfl ⊢
      obtain ⟨h1, g, h2, h3⟩ := hflag aid pid p hlp hfl
      refine ⟨h1, g, ?_, h3⟩
      unfold lookupGallery
      rw [galleriesD_mapAllPosts]
      exact h2
  · intro o1 o2 x g1 g2 h1 h2
    unfold lookupGallery at h1 h2
    rw [galleriesD_mapAllPosts] at h1 h2
    exact hU o1 o2 x g1 g2 h1 h2
  · intro aid pid p2 hp2
    rw [lookupPost_mapAllPosts] at hp2
    cases hlp : lookupPost stS aid pid with
    | none =>
      rw [hlp] at hp2
      cases hp2
    | some p =>
      rw [hlp] at hp2
      have hp3 : some (f aid p) = some p2 := hp2
      injection hp3 with h
      rw [← h, hid aid p]
      exact hKid aid pid p hlp
  · intro a
    constructor
    · rw [postsD_mapAllPosts, keys_mapv]
      exact (hN a).1
    · rw [galleriesD_mapAllPosts]
      exact (hN a).2

theorem alookup_of_mem_nodup {β : Type} {k : String} {v : β} {l : List (String × β)}
    (hnd : (keys l).Nodup) (hm : (k, v) ∈ l) : alookup k l = some v := by
  induction l with
  | nil => cases hm
  | cons e t ih =>
    have hnd2 : (e.1 :: keys t).Nodup := hnd
    rw [List.mem_cons] at hm
    rcases hm with he | ht
    · rw [← he]
      have h0 : alookup k ((k, v) :: t) = if k = k then some v else alookup k t := rfl
      rw [h0, if_pos rfl]
    · have hk : e.1 ≠ k := by
        intro hek
        have hkm : k ∈ keys t := List.mem_map.mpr ⟨(k, v), ht, rfl⟩
        rw [hek] at hnd2
        exact (List.nodup_cons.mp hnd2).1 hkm
      have h0 : alookup k (e :: t) = if e.1 = k then some e.2 else alookup k t := rfl
      rw [h0, if_neg hk]
      exact ih (List.nodup_cons.mp hnd2).2 ht

/-- Under the invariant, every stored post entry's value carries the
entry's key as its id. -/
theorem postsD_ids_of_inv {st : St} (hK : PostKeyId st) (hN : KeysOK st) (a : String) :
    ∀ kv ∈ (getPart st a).postsD, (kv.2 : Post).id = kv.1 := by
  intro kv hm
  obtain ⟨k0, v0⟩ := kv
  exact hK a k0 v0 (alookup_of_mem_nodup (hN a).1 hm)

/-- The state left by a successful `purgePost` satisfies the
invariant. -/
theorem inv_dropPost (st : St) (authorId pid : String) (hInv : Inv st) :
    Inv (dropPostStage authorId pid (purgePostCommentsStage pid (ensureUserData st authorId))) := by
  obtain ⟨hF, hU, hK, hN⟩ := hInv
  have hPost : ∀ a, (getPart (dropPostStage authorId pid
      (purgePostCommentsStage pid (ensureUserData st authorId))) a).postsD
      = if a = authorId then aerase pid (getPart st authorId).postsD
        else (getPart st a).postsD := by
    intro a
    rw [postsD_dropPostStage]
    by_cases h : a = authorId
    · rw [if_pos h, if_pos h, postsD_purgePostCommentsStage, postsD_ensure]
    · rw [if_neg h, if_neg h, postsD_purgePostCommentsStage, postsD_ensure]
  have hGal : ∀ a, (getPart (dropPostStage authorId pid
      (purgePostCommentsStage pid (ensureUserData st authorId))) a).galleriesD
      = (getPart st a).galleriesD := by
    intro a
    rw [galleriesD_dropPostStage, galleriesD_purgePostCommentsStage, galleriesD_ensure]
  have hchar : ∀ aid x p2, lookupPost (dropPostStage authorId pid
      (purgePostCommentsStage pid (ensureUserData st authorId))) aid x = some p2 →
      lookupPost st aid x = some p2 := by
    intro aid x p2 hp2
    unfold lookupPost at hp2 ⊢
    rw [hPost] at hp2
    by_cases ha : aid = authorId
    · rw [if_pos ha] at hp2
      by_cases hx : x = pid
      · subst hx
        rw [alookup_aerase_self x (hN authorId).1] at hp2
        cases hp2
      · rw [alookup_aerase_ne hx] at hp2
        rw [ha]
        exact hp2
    · rw [if_neg ha] at hp2
      exact hp2
  refine ⟨?_, ?_, ?_, ?_⟩
  · intro aid x p2 hp2 hfl
    obtain ⟨h1, g0, h2, h3⟩ := hF aid x p2 (hchar aid x p2 hp2) hfl
    refine ⟨h1, g0, ?_, h3⟩
    unfold lookupGallery
    rw [hGal]
    exact h2
  · intro o1 o2 x g1 g2 h1 h2
    unfold lookupGallery at h1 h2
    rw [hGal] at h1 h2
    exact hU o1 o2 x g1 g2 h1 h2
  · intro aid x p2 hp2
    exact hK aid x p2 (hchar aid x p2 hp2)
  · intro a
    constructor
    · rw [hPost]
      by_cases h : a = authorId
      · rw [if_pos h]
        exact keys_aerase_nodup pid (hN authorId).1
      · rw [if_neg h]
        exact (hN a).1
    · rw [hGal]
      exact (hN a).2

/-- The state left by a successful `purgeGallery` satisfies the
invariant, for any collected comment-purge id list. -/
theorem inv_purgeGalleryStages (st : St) (ownerId gid : String) (pids : List String)
    (hInv : Inv st) :
    Inv (dropGalleryStage ownerId gid (purgePostsStage ownerId gid
      (purgeCommentsStage pids (ensureUserData st ownerId)))) := by
  obtain ⟨hF, hU, hK, hN⟩ := hInv
  have hPost : ∀ a, (getPart (dropGalleryStage ownerId gid (purgePostsStage ownerId gid
      (purgeCommentsStage pids (ensureUserData st ownerId)))) a).postsD
      = purgePostsFrom ownerId gid a (getPart st a).postsD := by
    intro a
    rw [postsD_dropGalleryStage, postsD_purgePostsStage, postsD_purgeCommentsStage,
      postsD_ensure]
  have hGal : ∀ a, (getPart (dropGalleryStage ownerId gid (purgePostsStage ownerId gid
      (purgeCommentsStage pids (ensureUserData st ownerId)))) a).galleriesD
      = if a = ownerId then aerase gid (getPart st ownerId).galleriesD
        else (getPart st a).galleriesD := by
    intro a
    rw [galleriesD_dropGalleryStage]
    by_cases h : a = ownerId
    · rw [if_pos h, if_pos h, galleriesD_purgePostsStage, galleriesD_purgeCommentsStage,
        galleriesD_ensure]
    · rw [if_neg h, if_neg h, galleriesD_purgePostsStage, galleriesD_purgeCommentsStage,
        galleriesD_ensure]
  have hcharP : ∀ aid x p2, lookupPost (dropGalleryStage ownerId gid (purgePostsStage ownerId gid
      (purgeCommentsStage pids (ensureUserData st ownerId)))) aid x = some p2 →
      lookupPost st aid x = some p2 ∧ postMatches aid ownerId gid p2 = false := by
    intro aid x p2 hp2
    unfold lookupPost at hp2
    rw [hPost] at hp2
    exact alookup_purgePostsFrom (hN aid).1 (postsD_ids_of_inv hK hN aid) hp2
  have hcharG : ∀ o x g2, lookupGallery (dropGalleryStage ownerId gid (purgePostsStage ownerId gid
      (purgeCommentsStage pids (ensureUserData st ownerId)))) o x = some g2 →
      lookupGallery st o x = some g2 := by
    intro o x g2 hg2
    unfold lookupGallery at hg2 ⊢
    rw [hGal] at hg2
    by_cases ho : o = ownerId
    · rw [if_pos ho] at hg2
      by_cases hx : x = gid
      · subst hx
        rw [alookup_aerase_self x (hN ownerId).2] at hg2
        cases hg2
      · rw [alookup_aerase_ne hx] at hg2
        rw [ho]
        exact hg2
    · rw [if_neg ho] at hg2
      exact hg2
  refine ⟨?_, ?_, ?_, ?_⟩
  · intro aid x p2 hp2 hfl
    obtain ⟨hold, hnm⟩ := hcharP aid x p2 hp2
    obtain ⟨h1, g0, h2, h3⟩ := hF aid x p2 hold hfl
    refine ⟨h1, ?_⟩
    by_cases hro : resolvedOwner p2 aid = ownerId
    · by_cases hgi : p2.galleryId = gid
      · exfalso
        have hpm : postMatches aid ownerId gid p2 = true := by
          simp [postMatches, hro, hgi]
        rw [hpm] at hnm
        cases hnm
      · refine ⟨g0, ?_, h3⟩
        unfold lookupGallery
        rw [hGal, if_pos hro, alookup_aerase_ne hgi, ← hro]
        exact h2
    · refine ⟨g0, ?_, h3⟩
      unfold lookupGallery
      rw [hGal, if_neg hro]
      exact h2
  · intro o1 o2 x g1 g2 h1 h2
    exact hU o1 o2 x g1 g2 (hcharG o1 x g1 h1) (hcharG o2 x g2 h2)
  · intro aid x p2 hp2
    exact hK aid x p2 (hcharP aid x p2 hp2).1
  · intro a
    constructor
    · rw [hPost]
      unfold purgePostsFrom
      exact keys_foldl_aerase_nodup _ (hN a).1
    · rw [hGal]
      by_cases h : a = ownerId
      · rw [if_pos h]
        exact keys_aerase_nodup gid (hN ownerId).2
      · rw [if_neg h]
        exact (hN a).2

/-! ### Per-operation invariant preservation -/

theorem inv_op_createGallery (st : St) (actor ownerId gid now : String) (data : GalleryData)
    (hInv : Inv st) (hFr : ∀ o, lookupGallery st o gid = none) :
    Inv (createGallery st actor ownerId gid now data).2 := by
  unfold createGallery
  by_cases hcm : canManage st actor ownerId = true
  · rw [if_pos hcm]
    exact inv_setGalleryIn_fresh st ownerId gid _ hInv hFr
  · rw [if_neg hcm]
    exact hInv

theorem inv_op_updateGallery (st : St) (actor ownerId gid now : String) (patch : GalleryPatch)
    (hInv : Inv st) :
    Inv (updateGallery st actor ownerId gid now patch).2 := by
  unfold updateGallery
  by_cases hcm : canManage st actor ownerId = true
  · rw [if_pos hcm]
    cases hl : alookup gid (getPart (ensureUserData st ownerId) ownerId).galleriesD with
    | none =>
      simp only [hl]
      exact inv_of_pg_eq (fun a => postsD_ensure st ownerId a)
        (fun a => galleriesD_ensure st ownerId a) hInv
    | some g =>
      by_cases hdel : g.deletedAt.isSome = true
      · simp only [hl]
        rw [if_pos hdel]
        exact inv_of_pg_eq (fun a => postsD_ensure st ownerId a)
          (fun a => galleriesD_ensure st ownerId a) hInv
      · simp only [hl]
        rw [if_neg hdel]
        have hOld : lookupGallery st ownerId gid = some g := by
          rw [galleriesD_ensure] at hl
          exact hl
        exact inv_setGalleryIn_existing st ownerId gid g _ hInv hOld
          (fun h => absurd h hdel)
  · rw [if_neg hcm]
    exact hInv

theorem inv_op_deleteGallery (st : St) (actor ownerId gid now : String) (hInv : Inv st) :
    Inv (deleteGallerySoft st actor ownerId gid now).2 := by
  unfold deleteGallerySoft
  by_cases hcm : canManage st actor ownerId = true
  · rw [if_pos hcm]
    cases hl : alookup gid (getPart (ensureUserData st ownerId) ownerId).galleriesD with
    | none =>
      simp only [hl]
      exact inv_of_pg_eq (fun a => postsD_ensure st ownerId a)
        (fun a => galleriesD_ensure st ownerId a) hInv
    | some g =>
      by_cases hdel : g.deletedAt.isSome = true
      · simp only [hl]
        rw [if_pos hdel]
        exact inv_of_pg_eq (fun a => postsD_ensure st ownerId a)
          (fun a => galleriesD_ensure st ownerId a) hInv
      · simp only [hl]
        rw [if_neg hdel]
        have hOld : lookupGallery st ownerId gid = some g := by
          rw [galleriesD_ensure] at hl
          exact hl
        have hInvS := inv_setGalleryIn_existing st ownerId gid g
          { g with deletedAt := some now, updatedAt := now } hInv hOld (fun _ => rfl)
        obtain ⟨hFS, hUS, hKS, hNS⟩ := hInvS
        show Inv (mapAllPosts (delCascade ownerId gid now)
          (setGalleryIn (ensureUserData st ownerId) ownerId gid
            { g with deletedAt := some now, updatedAt := now }))
        refine inv_mapAllPosts _ _ hUS hKS hNS (delCascade_id ownerId gid now) ?_
        intro aid pid p hp hfl
        cases hc : postMatches aid ownerId gid p && p.deletedAt.isNone with
        | true =>
          have hq : delCascade ownerId gid now aid p
              = { p with deletedAt := some now, updatedAt := now, deletedByGallery := true } := by
            unfold delCascade
            rw [if_pos hc]
          have hpm : postMatches aid ownerId gid p = true := by
            cases hpm2 : postMatches aid ownerId gid p with
            | true => rfl
            | false =>
              rw [hpm2] at hc
              simp at hc
          simp only [postMatches, Bool.and_eq_true, beq_iff_eq] at hpm
          rw [hq]
          refine ⟨rfl, ?_⟩
          have hro2 : resolvedOwner
              { p with deletedAt := some now, updatedAt := now, deletedByGallery := true } aid
              = resolvedOwner p aid := rfl
          rw [hro2, hpm.1]
          show ∃ g2, lookupGallery _ ownerId p.galleryId = some g2 ∧ g2.deletedAt.isSome = true
          rw [hpm.2, lookupGallery_setGalleryIn, if_pos rfl, if_pos rfl]
          exact ⟨{ g with deletedAt := some now, updatedAt := now }, rfl, rfl⟩
        | false =>
          have hq : delCascade ownerId gid now aid p = p := by
            simp only [delCascade, hc, Bool.false_eq_true, if_false, ite_false]
          rw [hq] at hfl ⊢
          have hp2 : lookupPost st aid pid = some p := by
            rw [lookupPost_setGalleryIn, lookupPost_ensure] at hp
            exact hp
          obtain ⟨h1, g0, h2, h3⟩ := hInv.1 aid pid p hp2 hfl
          refine ⟨h1, ?_⟩
          rw [lookupGallery_setGalleryIn]
          by_cases hro : resolvedOwner p aid = ownerId
          · rw [if_pos hro]
            by_cases hgi : p.galleryId = gid
            · rw [if_pos hgi]
              exact ⟨{ g with deletedAt := some now, updatedAt := now }, rfl, rfl⟩
            · rw [if_neg hgi, lookupGallery_ensure]
              refine ⟨g0, ?_, h3⟩
              rw [← hro]
              exact h2
          · rw [if_neg hro, lookupGallery_ensure]
            exact ⟨g0, h2, h3⟩
  · rw [if_neg hcm]
    exact hInv

theorem inv_op_restoreGallery (st : St) (actor ownerId gid now : String) (hInv : Inv st) :
    Inv (restoreGallery st actor ownerId gid now).2 := by
  unfold restoreGallery
  by_cases hcm : canManage st actor ownerId = true
  · rw [if_pos hcm]
    cases hl : alookup gid (getPart (ensureUserData st ownerId) ownerId).galleriesD with
    | none =>
      simp only [hl]
      exact inv_of_pg_eq (fun a => postsD_ensure st ownerId a)
        (fun a => galleriesD_ensure st ownerId a) hInv
    | some g =>
      by_cases hdn : g.deletedAt.isNone = true
      · simp only [hl]
        rw [if_pos hdn]
        exact inv_of_pg_eq (fun a => postsD_ensure st ownerId a)
          (fun a => galleriesD_ensure st ownerId a) hInv
      · simp only [hl]
        rw [if_neg hdn]
        have hOld : lookupGallery st ownerId gid = some g := by
          rw [galleriesD_ensure] at hl
          exact hl
        obtain ⟨hUS, hKS, hNS⟩ := gupk_setGalleryIn st ownerId gid g
          { g with deletedAt := none, updatedAt := now } hInv hOld
        show Inv (mapAllPosts (restCascade ownerId gid now)
          (setGalleryIn (ensureUserData st ownerId) ownerId gid
            { g with deletedAt := none, updatedAt := now }))
        refine inv_mapAllPosts _ _ hUS hKS hNS (restCascade_id ownerId gid now) ?_
        intro aid pid p hp hfl
        cases hc : postMatches aid ownerId gid p && p.deletedAt.isSome && p.deletedByGallery with
        | true =>
          exfalso
          have hq : restCascade ownerId gid now aid p
              = { p with deletedAt := none, deletedByGallery := false, updatedAt := now } := by
            unfold restCascade
            rw [if_pos hc]
          rw [hq] at hfl
          exact Bool.false_ne_true hfl
        | false =>
          have hq : restCascade ownerId gid now aid p = p := by
            simp only [restCascade, hc, Bool.false_eq_true, if_false, ite_false]
          rw [hq] at hfl ⊢
          have hp2 : lookupPost st aid pid = some p := by
            rw [lookupPost_setGalleryIn, lookupPost_ensure] at hp
            exact hp
          obtain ⟨h1, g0, h2, h3⟩ := hInv.1 aid pid p hp2 hfl
          refine ⟨h1, ?_⟩
          rw [lookupGallery_setGalleryIn]
          by_cases hro : resolvedOwner p aid = ownerId
          · rw [if_pos hro]
            by_cases hgi : p.galleryId = gid
            · exfalso
              have hpm : postMatches aid ownerId gid p = true := by
                simp [postMatches, hro, hgi]
              rw [hpm, h1, hfl] at hc
              simp at hc
            · rw [if_neg hgi, lookupGallery_ensure]
              refine ⟨g0, ?_, h3⟩
              rw [← hro]
              exact h2
          · rw [if_neg hro, lookupGallery_ensure]
            exact ⟨g0, h2, h3⟩
  · rw [if_neg hcm]
    exact hInv

theorem inv_op_purgeGallery (st : St) (actor ownerId gid : String) (hInv : Inv st) :
    Inv (purgeGallery st actor ownerId gid).2 := by
  unfold purgeGallery
  by_cases hcm : canManage st actor ownerId = true
  · rw [if_pos hcm]
    cases hl : alookup gid (getPart (ensureUserData st ownerId) ownerId).galleriesD with
    | none =>
      simp only [hl]
      exact inv_of_pg_eq (fun a => postsD_ensure st ownerId a)
        (fun a => galleriesD_ensure st ownerId a) hInv
    | some g =>
      simp only [hl]
      exact inv_purgeGalleryStages st ownerId gid _ hInv
  · rw [if_neg hcm]
    exact hInv

theorem inv_op_createPost (st : St) (actor authorId pid now galleryId : String)
    (galleryOwnerId : Option String) (title content : Option String) (hInv : Inv st) :
    Inv (createPost st actor authorId pid now galleryId galleryOwnerId title content).2 := by
  unfold createPost
  by_cases hcm : canManage st actor authorId = true
  · rw [if_pos hcm]
    cases hres : (resolveGalleryCtx st galleryId galleryOwnerId).1 with
    | none =>
      simp only [hres]
      exact inv_of_pg_eq (fun a => by rw [getPart_resolveGalleryCtx])
        (fun a => by rw [getPart_resolveGalleryCtx]) hInv
    | some og =>
      obtain ⟨gOwner, g⟩ := og
      by_cases hdel : g.deletedAt.isSome = true
      · simp only [hres]
        rw [if_pos hdel]
        exact inv_of_pg_eq (fun a => by rw [getPart_resolveGalleryCtx])
          (fun a => by rw [getPart_resolveGalleryCtx]) hInv
      · simp only [hres]
        rw [if_neg hdel]
        refine inv_setPostIn_generic st _ authorId pid _ ?_ ?_ hInv rfl ?_
        · intro a
          rw [postsD_ensure, getPart_resolveGalleryCtx]
        · intro a
          rw [galleriesD_ensure, getPart_resolveGalleryCtx]
        · intro hq
          exact absurd hq Bool.false_ne_true
  · rw [if_neg hcm]
    exact hInv

theorem inv_op_updatePost (st : St) (actor authorId pid now : String) (patch : PostPatch)
    (hInv : Inv st) :
    Inv (updatePost st actor authorId pid now patch).2 := by
  unfold updatePost
  by_cases hcm : canManage st actor authorId = true
  · rw [if_pos hcm]
    cases hl : alookup pid (getPart (ensureUserData st authorId) authorId).postsD with
    | none =>
      simp only [hl]
      exact inv_of_pg_eq (fun a => postsD_ensure st authorId a)
        (fun a => galleriesD_ensure st authorId a) hInv
    | some p =>
      by_cases hdel : p.deletedAt.isSome = true
      · simp only [hl]
        rw [if_pos hdel]
        exact inv_of_pg_eq (fun a => postsD_ensure st authorId a)
          (fun a => galleriesD_ensure st authorId a) hInv
      · simp only [hl]
        rw [if_neg hdel]
        have hp1 : lookupPost (ensureUserData st authorId) authorId pid = some p := hl
        rw [lookupPost_ensure] at hp1
        refine inv_setPostIn_generic st _ authorId pid _ ?_ ?_ hInv ?_ ?_
        · intro a
          rw [postsD_ensure]
        · intro a
          rw [galleriesD_ensure]
        · show p.id = pid
          exact hInv.2.2.1 authorId pid p hp1
        · intro hq
          have hq2 : p.deletedByGallery = true := hq
          have h1 := (hInv.1 authorId pid p hp1 hq2).1
          rw [h1] at hdel
          exact absurd rfl hdel
  · rw [if_neg hcm]
    exact hInv

theorem inv_op_deletePost (st : St) (actor authorId pid now : String) (hInv : Inv st) :
    Inv (deletePostSoft st actor authorId pid now).2 := by
  unfold deletePostSoft
  by_cases hcm : canManage st actor authorId = true
  · rw [if_pos hcm]
    cases hl : alookup pid (getPart (ensureUserData st authorId) authorId).postsD with
    | none =>
      simp only [hl]
      exact inv_of_pg_eq (fun a => postsD_ensure st authorId a)
        (fun a => galleriesD_ensure st authorId a) hInv
    | some p =>
      by_cases hdel : p.deletedAt.isSome = true
      · simp only [hl]
        rw [if_pos hdel]
        exact inv_of_pg_eq (fun a => postsD_ensure st authorId a)
          (fun a => galleriesD_ensure st authorId a) hInv
      · simp only [hl]
        rw [if_neg hdel]
        have hp1 : lookupPost (ensureUserData st authorId) authorId pid = some p := hl
        rw [lookupPost_ensure] at hp1
        refine inv_setPostIn_generic st _ authorId pid _ ?_ ?_ hInv ?_ ?_
        · intro a
          rw [postsD_ensure]
        · intro a
          rw [galleriesD_ensure]
        · show p.id = pid
          exact hInv.2.2.1 authorId pid p hp1
        · intro hq
          exact absurd hq Bool.false_ne_true
  · rw [if_neg hcm]
    exact hInv

theorem inv_op_restorePost (st : St) (actor authorId pid now : String) (hInv : Inv st) :
    Inv (restorePost st actor authorId pid now).2 := by
  unfold restorePost
  by_cases hcm : canManage st actor authorId = true
  · rw [if_pos hcm]
    cases hl : alookup pid (getPart (ensureUserData st authorId) authorId).postsD with
    | none =>
      simp only [hl]
      exact inv_of_pg_eq (fun a => postsD_ensure st authorId a)
        (fun a => galleriesD_ensure st authorId a) hInv
    | some p =>
      by_cases hdn : p.deletedAt.isNone = true
      · simp only [hl]
        rw [if_pos hdn]
        exact inv_of_pg_eq (fun a => postsD_ensure st authorId a)
          (fun a => galleriesD_ensure st authorId a) hInv
      · simp only [hl]
        rw [if_neg hdn]
        cases hres : (resolveGalleryCtx (ensureUserData st authorId)
            p.galleryId p.galleryOwnerId).1 with
        | none =>
          simp only [hres]
          refine inv_of_pg_eq ?_ ?_ hInv
          · intro a
            rw [getPart_resolveGalleryCtx, postsD_ensure]
          · intro a
            rw [getPart_resolveGalleryCtx, galleriesD_ensure]
        | some og =>
          obtain ⟨o, g⟩ := og
          by_cases hgdel : g.deletedAt.isSome = true
          · simp only [hres]
            rw [if_pos hgdel]
            refine inv_of_pg_eq ?_ ?_ hInv
            · intro a
              rw [getPart_resolveGalleryCtx, postsD_ensure]
            · intro a
              rw [getPart_resolveGalleryCtx, galleriesD_ensure]
          · simp only [hres]
            rw [if_neg hgdel]
            have hp1 : lookupPost (ensureUserData st authorId) authorId pid = some p := hl
            rw [lookupPost_ensure] at hp1
            refine inv_setPostIn_generic st _ authorId pid _ ?_ ?_ hInv ?_ ?_
            · intro a
              rw [getPart_resolveGalleryCtx, postsD_ensure]
            · intro a
              rw [getPart_resolveGalleryCtx, galleriesD_ensure]
            · show p.id = pid
              exact hInv.2.2.1 authorId pid p hp1
            · intro hq
              exact absurd hq Bool.false_ne_true
  · rw [if_neg hcm]
    exact hInv

theorem inv_op_purgePost (st : St) (actor authorId pid : String) (hInv : Inv st) :
    Inv (purgePost st actor authorId pid).2 := by
  unfold purgePost
  by_cases hcm : canManage st actor authorId = true
  · rw [if_pos hcm]
    cases hl : alookup pid (getPart (ensureUserData st authorId) authorId).postsD with
    | none =>
      simp only [hl]
      exact inv_of_pg_eq (fun a => postsD_ensure st authorId a)
        (fun a => galleriesD_ensure st authorId a) hInv
    | some p =>
      simp only [hl]
      exact inv_dropPost st authorId pid hInv
  · rw [if_neg hcm]
    exact hInv

/-- Every command preserves the invariant (given id freshness for the
create commands). -/
theorem inv_apply (st : St) (op : Op) (hInv : Inv st) (hFr : op.Fresh st) :
    Inv (op.apply st) := by
  cases op with
  | createGallery actor ownerId gid now data =>
    exact inv_op_createGallery st actor ownerId gid now data hInv hFr
  | updateGallery actor ownerId gid now patch =>
    exact inv_op_updateGallery st actor ownerId gid now patch hInv
  | deleteGallery actor ownerId gid now =>
    exact inv_op_deleteGallery st actor ownerId gid now hInv
  | restoreGallery actor ownerId gid now =>
    exact inv_op_restoreGallery st actor ownerId gid now hInv
  | purgeGallery actor ownerId gid =>
    exact inv_op_purgeGallery st actor ownerId gid hInv
  | createPost actor authorId pid now galleryId galleryOwnerId title content =>
    exact inv_op_createPost st actor authorId pid now galleryId galleryOwnerId title content hInv
  | updatePost actor authorId pid now patch =>
    exact inv_op_updatePost st actor authorId pid now patch hInv
  | deletePost actor authorId pid now =>
    exact inv_op_deletePost st actor authorId pid now hInv
  | restorePost actor authorId pid now =>
    exact inv_op_restorePost st actor authorId pid now hInv
  | purgePost actor authorId pid =>
    exact inv_op_purgePost st actor authorId pid hInv
  | createComment actor authorId postId cid now text =>
    obtain ⟨hP, hG⟩ := pg_eq_createComment st actor authorId postId cid now text
    exact inv_of_pg_eq hP hG hInv
  | updateComment actor authorId cid now text =>
    obtain ⟨hP, hG⟩ := pg_eq_updateComment st actor authorId cid now text
    exact inv_of_pg_eq hP hG hInv
  | deleteComment actor authorId cid now =>
    obtain ⟨hP, hG⟩ := pg_eq_deleteComment st actor authorId cid now
    exact inv_of_pg_eq hP hG hInv
  | signup H username password salt uid now =>
    obtain ⟨hP, hG⟩ := pg_eq_signup H st username password salt uid now
    exact inv_of_pg_eq hP hG hInv
  | login H username password =>
    obtain ⟨hP, hG⟩ := pg_eq_login H st username password
    exact inv_of_pg_eq hP hG hInv
  | resolveGallery gid hint =>
    refine inv_of_pg_eq ?_ ?_ hInv
    · intro a
      show (getPart ((resolveGalleryCtx st gid hint).2) a).postsD = (getPart st a).postsD
      rw [getPart_resolveGalleryCtx]
    · intro a
      show (getPart ((resolveGalleryCtx st gid hint).2) a).galleriesD = (getPart st a).galleriesD
      rw [getPart_resolveGalleryCtx]
  | resolvePost pid hint =>
    refine inv_of_pg_eq ?_ ?_ hInv
    · intro a
      show (getPart ((resolvePostCtx st pid hint).2) a).postsD = (getPart st a).postsD
      rw [getPart_resolvePostCtx]
    · intro a
      show (getPart ((resolvePostCtx st pid hint).2) a).galleriesD = (getPart st a).galleriesD
      rw [getPart_resolvePostCtx]
  | listPosts gOwner gid incl =>
    refine inv_of_pg_eq ?_ ?_ hInv
    · intro a
      show (getPart ((listPostsInGallery st gOwner gid incl).2) a).postsD
        = (getPart st a).postsD
      unfold listPostsInGallery
      rw [getPart_listPostsScan]
    · intro a
      show (getPart ((listPostsInGallery st gOwner gid incl).2) a).galleriesD
        = (getPart st a).galleriesD
      unfold listPostsInGallery
      rw [getPart_listPostsScan]
  | ensure uid =>
    exact inv_of_pg_eq (fun a => postsD_ensure st uid a)
      (fun a => galleriesD_ensure st uid a) hInv

/-- The freshly-initialized document satisfies the invariant. -/
theorem inv_initial : Inv initialSt := by
  refine ⟨?_, ?_, ?_, ?_⟩
  · intro aid pid p hp hfl
    exact Option.noConfusion hp
  · intro o1 o2 x g1 g2 h1 h2
    exact Option.noConfusion h1
  · intro aid pid p hp
    exact Option.noConfusion hp
  · intro a
    exact ⟨List.nodup_nil, List.nodup_nil⟩

/-- The cascade-flag invariant holds in every reachable state. -/
theorem inv_reachable (st : St) (h : Reachable st) : Inv st := by
  induction h with
  | init => exact inv_initial
  | step st2 op hR hFr ih => exact inv_apply st2 op ih hFr

/-! ### Per-operation cascade-flag preservation -/

theorem flagPres_createGallery (st : St) (actor ownerId gid now : String) (data : GalleryData) :
    FlagPres st (createGallery st actor ownerId gid now data).2 := by
  refine flagPres_of_posts_eq ?_
  intro a
  unfold createGallery
  by_cases hcm : canManage st actor ownerId = true
  · rw [if_pos hcm]
    exact (postsD_setGalleryIn _ _ _ _ _).trans (postsD_ensure _ _ _)
  · rw [if_neg hcm]

theorem flagPres_updateGallery (st : St) (actor ownerId gid now : String) (patch : GalleryPatch) :
    FlagPres st (updateGallery st actor ownerId gid now patch).2 := by
  refine flagPres_of_posts_eq ?_
  intro a
  unfold updateGallery
  by_cases hcm : canManage st actor ownerId = true
  · rw [if_pos hcm]
    cases hl : alookup gid (getPart (ensureUserData st ownerId) ownerId).galleriesD with
    | none =>
      simp only [hl]
      exact postsD_ensure st ownerId a
    | some g =>
      by_cases hdel : g.deletedAt.isSome = true
      · simp only [hl]
        rw [if_pos hdel]
        exact postsD_ensure st ownerId a
      · simp only [hl]
        rw [if_neg hdel]
        exact (postsD_setGalleryIn _ _ _ _ _).trans (postsD_ensure _ _ _)
  · rw [if_neg hcm]

theorem flagPres_deleteGallery (st : St) (actor ownerId gid now : String) :
    FlagPres st (deleteGallerySoft st actor ownerId gid now).2 := by
  unfold deleteGallerySoft
  by_cases hcm : canManage st actor ownerId = true
  · rw [if_pos hcm]
    cases hl : alookup gid (getPart (ensureUserData st ownerId) ownerId).galleriesD with
    | none =>
      simp only [hl]
      exact flagPres_of_posts_eq (fun a => postsD_ensure st ownerId a)
    | some g =>
      by_cases hdel : g.deletedAt.isSome = true
      · simp only [hl]
        rw [if_pos hdel]
        exact flagPres_of_posts_eq (fun a => postsD_ensure st ownerId a)
      · simp only [hl]
        rw [if_neg hdel]
        show FlagPres st (mapAllPosts (delCascade ownerId gid now)
          (setGalleryIn (ensureUserData st ownerId) ownerId gid
            { g with deletedAt := some now, updatedAt := now }))
        intro aid pid p p2 hp hp2 hfl
        rw [lookupPost_mapAllPosts, lookupPost_setGalleryIn, lookupPost_ensure, hp] at hp2
        have hp3 : some (delCascade ownerId gid now aid p) = some p2 := hp2
        injection hp3 with h
        rw [← h]
        unfold delCascade
        split
        · rfl
        · exact hfl
  · rw [if_neg hcm]
    exact flagPres_of_posts_eq (fun a => rfl)

theorem flagPres_purgeGallery (st : St) (actor ownerId gid : String) (hInv : Inv st) :
    FlagPres st (purgeGallery st actor ownerId gid).2 := by
  obtain ⟨hF, hU, hK, hN⟩ := hInv
  unfold purgeGallery
  by_cases hcm : canManage st actor ownerId = true
  · rw [if_pos hcm]
    cases hl : alookup gid (getPart (ensureUserData st ownerId) ownerId).galleriesD with
    | none =>
      simp only [hl]
      exact flagPres_of_posts_eq (fun a => postsD_ensure st ownerId a)
    | some g =>
      simp only [hl]
      show FlagPres st (dropGalleryStage ownerId gid (purgePostsStage ownerId gid
        (purgeCommentsStage (purgeMatchedIds ownerId gid (ensureUserData st ownerId))
          (ensureUserData st ownerId))))
      intro aid x p p2 hp hp2 hfl
      have hPost : (getPart (dropGalleryStage ownerId gid (purgePostsStage ownerId gid
          (purgeCommentsStage (purgeMatchedIds ownerId gid (ensureUserData st ownerId))
            (ensureUserData st ownerId)))) aid).postsD
          = purgePostsFrom ownerId gid aid (getPart st aid).postsD := by
        rw [postsD_dropGalleryStage, postsD_purgePostsStage, postsD_purgeCommentsStage,
          postsD_ensure]
      unfold lookupPost at hp2
      rw [hPost] at hp2
      obtain ⟨hold, _⟩ := alookup_purgePostsFrom (hN aid).1 (postsD_ids_of_inv hK hN aid) hp2
      have h0 : lookupPost st aid x = some p2 := hold
      rw [hp] at h0
      injection h0 with hh
      rw [← hh]
      exact hfl
  · rw [if_neg hcm]
    exact flagPres_of_posts_eq (fun a => rfl)

theorem flagPres_createPost (st : St) (actor authorId pid now galleryId : String)
    (galleryOwnerId : Option String) (title content : Option String)
    (hFr : ∀ a, lookupPost st a pid = none) :
    FlagPres st (createPost st actor authorId pid now galleryId galleryOwnerId title content).2 := by
  unfold createPost
  by_cases hcm : canManage st actor authorId = true
  · rw [if_pos hcm]
    cases hres : (resolveGalleryCtx st galleryId galleryOwnerId).1 with
    | none =>
      simp only [hres]
      refine flagPres_of_posts_eq ?_
      intro a
      show (getPart ((resolveGalleryCtx st galleryId galleryOwnerId).2) a).postsD
        = (getPart st a).postsD
      rw [getPart_resolveGalleryCtx]
    | some og =>
      obtain ⟨gOwner, g⟩ := og
      by_cases hdel : g.deletedAt.isSome = true
      · simp only [hres]
        rw [if_pos hdel]
        refine flagPres_of_posts_eq ?_
        intro a
        show (getPart ((resolveGalleryCtx st galleryId galleryOwnerId).2) a).postsD
          = (getPart st a).postsD
        rw [getPart_resolveGalleryCtx]
      · simp only [hres]
        rw [if_neg hdel]
        refine flagPres_setPostIn_generic st _ authorId pid _ ?_ ?_
        · intro a
          rw [postsD_ensure, getPart_resolveGalleryCtx]
        · intro q hq
          rw [hFr authorId] at hq
          cases hq
  · rw [if_neg hcm]
    exact flagPres_of_posts_eq (fun a => rfl)

theorem flagPres_updatePost (st : St) (actor authorId pid now : String) (patch : PostPatch) :
    FlagPres st (updatePost st actor authorId pid now patch).2 := by
  unfold updatePost
  by_cases hcm : canManage st actor authorId = true
  · rw [if_pos hcm]
    cases hl : alookup pid (getPart (ensureUserData st authorId) authorId).postsD with
    | none =>
      simp only [hl]
      exact flagPres_of_posts_eq (fun a => postsD_ensure st authorId a)
    | some p =>
      by_cases hdel : p.deletedAt.isSome = true
      · simp only [hl]
        rw [if_pos hdel]
        exact flagPres_of_posts_eq (fun a => postsD_ensure st authorId a)
      · simp only [hl]
        rw [if_neg hdel]
        refine flagPres_setPostIn_generic st _ authorId pid _ ?_ ?_
        · intro a
          rw [postsD_ensure]
        · intro q hq hqf
          have hp1 : lookupPost (ensureUserData st authorId) authorId pid = some p := hl
          rw [lookupPost_ensure] at hp1
          rw [hp1] at hq
          injection hq with hh
          show p.deletedByGallery = true
          rw [hh]
          exact hqf
  · rw [if_neg hcm]
    exact flagPres_of_posts_eq (fun a => rfl)

theorem flagPres_deletePost (st : St) (actor authorId pid now : String) (hInv : Inv st) :
    FlagPres st (deletePostSoft st actor authorId pid now).2 := by
  unfold deletePostSoft
  by_cases hcm : canManage st actor authorId = true
  · rw [if_pos hcm]
    cases hl : alookup pid (getPart (ensureUserData st authorId) authorId).postsD with
    | none =>
      simp only [hl]
      exact flagPres_of_posts_eq (fun a => postsD_ensure st authorId a)
    | some p =>
      by_cases hdel : p.deletedAt.isSome = true
      · simp only [hl]
        rw [if_pos hdel]
        exact flagPres_of_posts_eq (fun a => postsD_ensure st authorId a)
      · simp only [hl]
        rw [if_neg hdel]
        refine flagPres_setPostIn_generic st _ authorId pid _ ?_ ?_
        · intro a
          rw [postsD_ensure]
        · intro q hq hqf
          exfalso
          have hp1 : lookupPost (ensureUserData st authorId) authorId pid = some p := hl
          rw [lookupPost_ensure] at hp1
          rw [hp1] at hq
          injection hq with hh
          rw [← hh] at hqf
          have h1 := (hInv.1 authorId pid p hp1 hqf).1
          rw [h1] at hdel
          exact hdel rfl
  · rw [if_neg hcm]
    exact flagPres_of_posts_eq (fun a => rfl)

theorem flagPres_restorePost (st : St) (actor authorId pid now : String) (hInv : Inv st) :
    FlagPres st (restorePost st actor authorId pid now).2 := by
  unfold restorePost
  by_cases hcm : canManage st actor authorId = true
  · rw [if_pos hcm]
    cases hl : alookup pid (getPart (ensureUserData st authorId) authorId).postsD with
    | none =>
      simp only [hl]
      exact flagPres_of_posts_eq (fun a => postsD_ensure st authorId a)
    | some p =>
      by_cases hdn : p.deletedAt.isNone = true
      · simp only [hl]
        rw [if_pos hdn]
        exact flagPres_of_posts_eq (fun a => postsD_ensure st authorId a)
      · simp only [hl]
        rw [if_neg hdn]
        cases hres : (resolveGalleryCtx (ensureUserData st authorId)
            p.galleryId p.galleryOwnerId).1 with
        | none =>
          simp only [hres]
          refine flagPres_of_posts_eq ?_
          intro a
          show (getPart ((resolveGalleryCtx (ensureUserData st authorId)
            p.galleryId p.galleryOwnerId).2) a).postsD = (getPart st a).postsD
          rw [getPart_resolveGalleryCtx, postsD_ensure]
        | some og =>
          obtain ⟨o, g⟩ := og
          by_cases hgdel : g.deletedAt.isSome = true
          · simp only [hres]
            rw [if_pos hgdel]
            refine flagPres_of_posts_eq ?_
            intro a
            show (getPart ((resolveGalleryCtx (ensureUserData st authorId)
              p.galleryId p.galleryOwnerId).2) a).postsD = (getPart st a).postsD
            rw [getPart_resolveGalleryCtx, postsD_ensure]
          · simp only [hres]
            rw [if_neg hgdel]
            refine flagPres_setPostIn_generic st _ authorId pid _ ?_ ?_
            · intro a
              rw [getPart_resolveGalleryCtx, postsD_ensure]
            · intro q hq hqf
              exfalso
              have hp1 : lookupPost (ensureUserData st authorId) authorId pid = some p := hl
              rw [lookupPost_ensure] at hp1
              rw [hp1] at hq
              injection hq with hh
              rw [← hh] at hqf
              obtain ⟨h1, g0, h2, h3⟩ := hInv.1 authorId pid p hp1 hqf
              have hsound : lookupGallery (ensureUserData st authorId) o p.galleryId = some g :=
                resolveGalleryCtx_sound hres
              rw [lookupGallery_ensure] at hsound
              have ho : o = resolvedOwner p authorId :=
                hInv.2.1 o (resolvedOwner p authorId) p.galleryId g g0 hsound h2
              rw [ho, h2] at hsound
              injection hsound with hg
              rw [hg] at h3
              exact hgdel h3
  · rw [if_neg hcm]
    exact flagPres_of_posts_eq (fun a => rfl)

theorem flagPres_purgePost (st : St) (actor authorId pid : String) (hInv : Inv st) :
    FlagPres st (purgePost st actor authorId pid).2 := by
  obtain ⟨hF, hU, hK, hN⟩ := hInv
  unfold purgePost
  by_cases hcm : canManage st actor authorId = true
  · rw [if_pos hcm]
    cases hl : alookup pid (getPart (ensureUserData st authorId) authorId).postsD with
    | none =>
      simp only [hl]
      exact flagPres_of_posts_eq (fun a => postsD_ensure st authorId a)
    | some p0 =>
      simp only [hl]
      show FlagPres st (dropPostStage authorId pid
        (purgePostCommentsStage pid (ensureUserData st authorId)))
      intro aid x p p2 hp hp2 hfl
      have hPost : (getPart (dropPostStage authorId pid
          (purgePostCommentsStage pid (ensureUserData st authorId))) aid).postsD
          = if aid = authorId then aerase pid (getPart st authorId).postsD
            else (getPart st aid).postsD := by
        rw [postsD_dropPostStage]
        by_cases h : aid = authorId
        · rw [if_pos h, if_pos h, postsD_purgePostCommentsStage, postsD_ensure]
        · rw [if_neg h, if_neg h, postsD_purgePostCommentsStage, postsD_ensure]
      unfold lookupPost at hp2
      rw [hPost] at hp2
      have h0 : lookupPost st aid x = some p2 := by
        by_cases ha : aid = authorId
        · rw [if_pos ha] at hp2
          by_cases hx : x = pid
          · subst hx
            rw [alookup_aerase_self x (hN authorId).1] at hp2
            cases hp2
          · rw [alookup_aerase_ne hx] at hp2
            unfold lookupPost
            rw [ha]
            exact hp2
        · rw [if_neg ha] at hp2
          exact hp2
      rw [hp] at h0
      injection h0 with hh
      rw [← hh]
      exact hfl
  · rw [if_neg hcm]
    exact flagPres_of_posts_eq (fun a => rfl)

/-- No command other than the gallery-restore cascade ever clears a
post's `deletedByGallery` flag. -/
theorem flagPres_apply (st : St) (op : Op) (hInv : Inv st) (hFr : op.Fresh st)
    (hnr : op.isRestoreGalleryCascade = false) : FlagPres st (op.apply st) := by
  cases op with
  | createGallery actor ownerId gid now data =>
    exact flagPres_createGallery st actor ownerId gid now data
  | updateGallery actor ownerId gid now patch =>
    exact flagPres_updateGallery st actor ownerId gid now patch
  | deleteGallery actor ownerId gid now =>
    exact flagPres_deleteGallery st actor ownerId gid now
  | restoreGallery actor ownerId gid now =>
    exact Bool.noConfusion hnr
  | purgeGallery actor ownerId gid =>
    exact flagPres_purgeGallery st actor ownerId gid hInv
  | createPost actor authorId pid now galleryId galleryOwnerId title content =>
    exact flagPres_createPost st actor authorId pid now galleryId galleryOwnerId title content hFr
  | updatePost actor authorId pid now patch =>
    exact flagPres_updatePost st actor authorId pid now patch
  | deletePost actor authorId pid now =>
    exact flagPres_deletePost st actor authorId pid now hInv
  | restorePost actor authorId pid now =>
    exact flagPres_restorePost st actor authorId pid now hInv
  | purgePost actor authorId pid =>
    exact flagPres_purgePost st actor authorId pid hInv
  | createComment actor authorId postId cid now text =>
    exact flagPres_of_posts_eq (pg_eq_createComment st actor authorId postId cid now text).1
  | updateComment actor authorId cid now text =>
    exact flagPres_of_posts_eq (pg_eq_updateComment st actor authorId cid now text).1
  | deleteComment actor authorId cid now =>
    exact flagPres_of_posts_eq (pg_eq_deleteComment st actor authorId cid now).1
  | signup H username password salt uid now =>
    exact flagPres_of_posts_eq (pg_eq_signup H st username password salt uid now).1
  | login H username password =>
    exact flagPres_of_posts_eq (pg_eq_login H st username password).1
  | resolveGallery gid hint =>
    refine flagPres_of_posts_eq ?_
    intro a
    show (getPart ((resolveGalleryCtx st gid hint).2) a).postsD = (getPart st a).postsD
    rw [getPart_resolveGalleryCtx]
  | resolvePost pid hint =>
    refine flagPres_of_posts_eq ?_
    intro a
    show (getPart ((resolvePostCtx st pid hint).2) a).postsD = (getPart st a).postsD
    rw [getPart_resolvePostCtx]
  | listPosts gOwner gid incl =>
    refine flagPres_of_posts_eq ?_
    intro a
    show (getPart ((listPostsInGallery st gOwner gid incl).2) a).postsD = (getPart st a).postsD
    unfold listPostsInGallery
    rw [getPart_listPostsScan]
  | ensure uid =>
    exact flagPres_of_posts_eq (fun a => postsD_ensure st uid a)

/-! ### Claim theorems -/

/-- C1: for every state, acting user with permission on the gallery
owner's partition, and non-tombstoned gallery `g` stored under
`(ownerId, gid)`, `deleteGallerySoft` succeeds, tombstones the gallery,
and rewrites every post of every partition pointwise: a post whose
resolved `(galleryOwnerId, galleryId)` matches and whose `deletedAt`
was null is tombstoned at `now` with `deletedByGallery := true`; every
other post — in particular every already-tombstoned one — is returned
unchanged, keeping its prior `deletedAt` and `deletedByGallery`.  No
post appears or disappears. -/
theorem c1_deleteGallery_cascade (st : St) (actor ownerId gid now : String) (g : Gallery)
    (hperm : canManage st actor ownerId = true)
    (hg : lookupGallery st ownerId gid = some g)
    (hdel : g.deletedAt = none) :
    (deleteGallerySoft st actor ownerId gid now).1 = Res.ok ∧
    lookupGallery (deleteGallerySoft st actor ownerId gid now).2 ownerId gid
      = some { g with deletedAt := some now, updatedAt := now } ∧
    (∀ aid pid p, lookupPost st aid pid = some p →
      lookupPost (deleteGallerySoft st actor ownerId gid now).2 aid pid
        = some (if postMatches aid ownerId gid p && p.deletedAt.isNone
            then { p with deletedAt := some now, updatedAt := now, deletedByGallery := true }
            else p)) ∧
    (∀ aid pid, lookupPost st aid pid = none →
      lookupPost (deleteGallerySoft st actor ownerId gid now).2 aid pid = none) := by
  rw [deleteGallerySoft_shape st actor ownerId gid now g hperm hg hdel]
  refine ⟨rfl, ?_, ?_, ?_⟩
  · unfold lookupGallery
    rw [galleriesD_mapAllPosts, galleriesD_setGalleryIn, if_pos rfl, alookup_aset_self]
  · intro aid pid p hp
    rw [lookupPost_mapAllPosts]
    have h2 : lookupPost (setGalleryIn (ensureUserData st ownerId) ownerId gid
        { g with deletedAt := some now, updatedAt := now }) aid pid = some p := by
      unfold lookupPost
      rw [postsD_setGalleryIn, postsD_ensure]
      exact hp
    rw [h2]
    rfl
  · intro aid pid hp
    rw [lookupPost_mapAllPosts]
    have h2 : lookupPost (setGalleryIn (ensureUserData st ownerId) ownerId gid
        { g with deletedAt := some now, updatedAt := now }) aid pid = none := by
      unfold lookupPost
      rw [postsD_setGalleryIn, postsD_ensure]
      exact hp
    rw [h2]
    rfl

/-- C2: for every state, permitted actor, and tombstoned gallery `g`
stored under `(ownerId, gid)`, `restoreGallery` succeeds, clears the
gallery tombstone, and rewrites every post pointwise: a matching post
that is tombstoned with `deletedByGallery = true` is restored
(`deletedAt := none`) and its flag cleared; every other post — in
particular a matching post deleted independently
(`deletedByGallery = false`) — is returned unchanged, so it remains
tombstoned.  No post appears or disappears. -/
theorem c2_restoreGallery_cascade (st : St) (actor ownerId gid now : String) (g : Gallery)
    (hperm : canManage st actor ownerId = true)
    (hg : lookupGallery st ownerId gid = some g)
    (hdel : g.deletedAt.isSome = true) :
    (restoreGallery st actor ownerId gid now).1 = Res.ok ∧
    lookupGallery (restoreGallery st actor ownerId gid now).2 ownerId gid
      = some { g with deletedAt := none, updatedAt := now } ∧
    (∀ aid pid p, lookupPost st aid pid = some p →
      lookupPost (restoreGallery st actor ownerId gid now).2 aid pid
        = some (if postMatches aid ownerId gid p && p.deletedAt.isSome && p.deletedByGallery
            then { p with deletedAt := none, deletedByGallery := false, updatedAt := now }
            else p)) ∧
    (∀ aid pid, lookupPost st aid pid = none →
      lookupPost (restoreGallery st actor ownerId gid now).2 aid pid = none) := by
  rw [restoreGallery_shape st actor ownerId gid now g hperm hg hdel]
  refine ⟨rfl, ?_, ?_, ?_⟩
  · unfold lookupGallery
    rw [galleriesD_mapAllPosts, galleriesD_setGalleryIn, if_pos rfl, alookup_aset_self]
  · intro aid pid p hp
    rw [lookupPost_mapAllPosts]
    have h2 : lookupPost (setGalleryIn (ensureUserData st ownerId) ownerId gid
        { g with deletedAt := none, updatedAt := now }) aid pid = some p := by
      unfold lookupPost
      rw [postsD_setGalleryIn, postsD_ensure]
      exact hp
    rw [h2]
    rfl
  · intro aid pid hp
    rw [lookupPost_mapAllPosts]
    have h2 : lookupPost (setGalleryIn (ensureUserData st ownerId) ownerId gid
        { g with deletedAt := none, updatedAt := now }) aid pid = none := by
      unfold lookupPost
      rw [postsD_setGalleryIn, postsD_ensure]
      exact hp
    rw [h2]
    rfl

/-- C9: `purgeGallery` and `purgePost` require only existence and
permission, never a prior tombstone: a never-soft-deleted (alive)
gallery or post is purged directly, and the target is gone afterwards. -/
theorem c9_purge_without_tombstone (st : St) (actor : String) :
    (∀ ownerId gid g, canManage st actor ownerId = true →
      lookupGallery st ownerId gid = some g → g.deletedAt = none →
      (purgeGallery st actor ownerId gid).1 = Res.ok ∧
      ((keys (getPart st ownerId).galleriesD).Nodup →
        lookupGallery (purgeGallery st actor ownerId gid).2 ownerId gid = none)) ∧
    (∀ authorId pid p, canManage st actor authorId = true →
      lookupPost st authorId pid = some p → p.deletedAt = none →
      (purgePost st actor authorId pid).1 = Res.ok ∧
      ((keys (getPart st authorId).postsD).Nodup →
        lookupPost (purgePost st actor authorId pid).2 authorId pid = none)) := by
  constructor
  · intro ownerId gid g hperm hg _halive
    rw [purgeGallery_shape st actor ownerId gid g hperm hg]
    refine ⟨rfl, fun hnd => ?_⟩
    unfold lookupGallery
    rw [galleriesD_dropGalleryStage, if_pos rfl, galleriesD_purgePostsStage,
      galleriesD_purgeCommentsStage, galleriesD_ensure]
    exact alookup_aerase_self gid hnd
  · intro authorId pid p hperm hp _halive
    rw [purgePost_shape st actor authorId pid p hperm hp]
    refine ⟨rfl, fun hnd => ?_⟩
    unfold lookupPost
    rw [postsD_dropPostStage, if_pos rfl, postsD_purgePostCommentsStage, postsD_ensure]
    exact alookup_aerase_self pid hnd

theorem c9_purge_without_tombstone_witness :
    canManage wStC "ua" "ua" = true ∧ lookupGallery wStC "ua" "g1" = some wG1 ∧
    wG1.deletedAt = none ∧
    (purgeGallery wStC "ua" "ua" "g1").1 = Res.ok ∧
    lookupGallery (purgeGallery wStC "ua" "ua" "g1").2 "ua" "g1" = none ∧
    canManage wStC "ub" "ub" = true ∧ lookupPost wStC "ub" "p1" = some wP1 ∧
    wP1.deletedAt = none ∧
    (purgePost wStC "ub" "ub" "p1").1 = Res.ok ∧
    lookupPost (purgePost wStC "ub" "ub" "p1").2 "ub" "p1" = none := by
  have h1 := (c9_purge_without_tombstone wStC "ua").1 "ua" "g1" wG1 (by rfl) (by rfl) (by rfl)
  have h2 := (c9_purge_without_tombstone wStC "ub").2 "ub" "p1" wP1 (by rfl) (by rfl) (by rfl)
  exact ⟨by rfl, by rfl, by rfl, h1.1, h1.2 (by decide), by rfl, by rfl, by rfl,
    h2.1, h2.2 (by decide)⟩

/-- C4: purging an existing gallery (tombstoned or not) under a
well-formed document leaves no gallery stored under its id in any
partition, no post in any partition whose resolved
`(galleryOwnerId, galleryId)` references it, and no comment in any
partition whose `postId` is the id of any post that was under it.
Well-formedness: per-partition key lists are duplicate-free, every
post is stored under its own id, and no other partition stores a
gallery under the same id. -/
theorem c4_purgeGallery_no_remnants (st : St) (actor ownerId gid : String) (g : Gallery)
    (hperm : canManage st actor ownerId = true)
    (hg : lookupGallery st ownerId gid = some g)
    (hkeys : ∀ e ∈ st.userData,
      (keys (e.2 : RawPartition).postsD).Nodup ∧ (keys e.2.galleriesD).Nodup)
    (hids : ∀ e ∈ st.userData, ∀ kv ∈ (e.2 : RawPartition).postsD, (kv.2 : Post).id = kv.1)
    (huniq : ∀ e ∈ st.userData, e.1 ≠ ownerId →
      alookup gid (e.2 : RawPartition).galleriesD = none) :
    (purgeGallery st actor ownerId gid).1 = Res.ok ∧
    (∀ o2, lookupGallery (purgeGallery st actor ownerId gid).2 o2 gid = none) ∧
    (∀ a pid p, lookupPost (purgeGallery st actor ownerId gid).2 a pid = some p →
      postMatches a ownerId gid p = false) ∧
    (∀ a pid p, lookupPost st a pid = some p → postMatches a ownerId gid p = true →
      ∀ a2 cid c, lookupComment (purgeGallery st actor ownerId gid).2 a2 cid = some c →
        c.postId ≠ p.id) := by
  rw [purgeGallery_shape st actor ownerId gid g hperm hg]
  refine ⟨rfl, ?_, ?_, ?_⟩
  · intro o2
    unfold lookupGallery
    rw [galleriesD_dropGalleryStage]
    by_cases ho : o2 = ownerId
    · rw [if_pos ho, galleriesD_purgePostsStage, galleriesD_purgeCommentsStage, galleriesD_ensure]
      exact alookup_aerase_self gid (keysOK_pointwise hkeys ownerId).2
    · rw [if_neg ho, galleriesD_purgePostsStage, galleriesD_purgeCommentsStage, galleriesD_ensure]
      exact lookupGallery_none_pointwise huniq o2 ho
  · intro a pid p hp
    unfold lookupPost at hp
    rw [postsD_dropGalleryStage, postsD_purgePostsStage, postsD_purgeCommentsStage,
      postsD_ensure] at hp
    unfold purgePostsFrom at hp
    rw [alookup_foldl_aerase _ (keysOK_pointwise hkeys a).1] at hp
    by_cases hmem : pid ∈ ((getPart st a).postsD.filter fun kv =>
        postMatches a ownerId gid kv.2).map fun kv => kv.2.id
    · rw [if_pos hmem] at hp
      exact absurd hp (by simp)
    · rw [if_neg hmem] at hp
      by_contra hm
      rw [Bool.not_eq_false] at hm
      have hid : p.id = pid := postIds_pointwise hids hp
      refine hmem ?_
      refine List.mem_map.mpr ⟨(pid, p), List.mem_filter.mpr ⟨mem_of_alookup hp, hm⟩, ?_⟩
      exact hid
  · intro a pid p hp hm a2 cid c hc
    unfold lookupComment at hc
    rw [commentsD_dropGalleryStage, commentsD_purgePostsStage,
      commentsD_purgeCommentsStage, commentsD_ensure] at hc
    have hnotin := prop_of_alookup_filter hc
    have hp1 : lookupPost (ensureUserData st ownerId) a pid = some p := by
      unfold lookupPost
      rw [postsD_ensure]
      exact hp
    have hin : p.id ∈ purgeMatchedIds ownerId gid (ensureUserData st ownerId) :=
      mem_purgeMatchedIds hp1 hm
    intro hcp
    rw [hcp] at hnotin
    simp only [Bool.not_eq_true'] at hnotin
    have hnotin2 : List.elem p.id (purgeMatchedIds ownerId gid (ensureUserData st ownerId))
        = false := hnotin
    rw [List.elem_eq_true_of_mem hin] at hnotin2
    cases hnotin2

theorem c4_purgeGallery_no_remnants_witness :
    canManage wStD "ua" "ua" = true ∧ lookupGallery wStD "ua" "g1" = some wG1del ∧
    (purgeGallery wStD "ua" "ua" "g1").1 = Res.ok ∧
    (∀ o2, lookupGallery (purgeGallery wStD "ua" "ua" "g1").2 o2 "g1" = none) ∧
    lookupPost (purgeGallery wStD "ua" "ua" "g1").2 "ub" "p1" = none ∧
    lookupComment (purgeGallery wStD "ua" "ua" "g1").2 "ua" "c1" = none := by
  have h := c4_purgeGallery_no_remnants wStD "ua" "ua" "g1" wG1del (by rfl) (by rfl)
    (by decide) (by decide) (by decide)
  exact ⟨by rfl, by rfl, h.1, h.2.1, by rfl, by rfl⟩

/-- C6: a tombstoned post cannot be restored while every gallery stored
under its `galleryId` is tombstoned (or none exists): `restorePost`
reports `parentUnavailable` and leaves the post unchanged.  Once the
referenced gallery is alive (e.g. after `restoreGallery`) and the post
is still tombstoned, `restorePost` succeeds and clears the tombstone
(and cascade flag). -/
theorem c6_restorePost_parent_gate (st : St) (actor authorId pid now : String) (p : Post)
    (hperm : canManage st actor authorId = true)
    (hp : lookupPost st authorId pid = some p)
    (hdel : p.deletedAt.isSome = true) :
    ((∀ o2 g2, lookupGallery st o2 p.galleryId = some g2 → g2.deletedAt.isSome = true) →
      (restorePost st actor authorId pid now).1 = Res.parentUnavailable ∧
      lookupPost (restorePost st actor authorId pid now).2 authorId pid = some p) ∧
    (∀ g, lookupGallery st (resolvedOwner p authorId) p.galleryId = some g →
      g.deletedAt = none → p.galleryId ≠ "" →
      (∀ o2, o2 ≠ resolvedOwner p authorId → lookupGallery st o2 p.galleryId = none) →
      (restorePost st actor authorId pid now).1 = Res.ok ∧
      lookupPost (restorePost st actor authorId pid now).2 authorId pid
        = some { p with deletedAt := none, deletedByGallery := false, updatedAt := now }) := by
  rw [restorePost_shape st actor authorId pid now p hperm hp hdel]
  constructor
  · intro htomb
    cases hres : (resolveGalleryCtx (ensureUserData st authorId) p.galleryId p.galleryOwnerId).1 with
    | none =>
      simp only [hres]
      refine ⟨by trivial, ?_⟩
      unfold lookupPost
      rw [getPart_resolveGalleryCtx, getPart_ensure]
      exact hp
    | some og =>
      obtain ⟨o, g⟩ := og
      have hsound := resolveGalleryCtx_sound hres
      have hsound2 : lookupGallery st o p.galleryId = some g := by
        unfold lookupGallery at hsound ⊢
        rw [getPart_ensure] at hsound
        exact hsound
      have hts := htomb o g hsound2
      simp only [hres]
      rw [if_pos hts]
      refine ⟨by trivial, ?_⟩
      unfold lookupPost
      rw [getPart_resolveGalleryCtx, getPart_ensure]
      exact hp
  · intro g hg halive hgid hU
    have hg1 : lookupGallery (ensureUserData st authorId) (resolvedOwner p authorId)
        p.galleryId = some g := by
      unfold lookupGallery
      rw [getPart_ensure]
      exact hg
    have hU1 : ∀ o2, o2 ≠ resolvedOwner p authorId →
        lookupGallery (ensureUserData st authorId) o2 p.galleryId = none := by
      intro o2 ho2
      unfold lookupGallery
      rw [getPart_ensure]
      exact hU o2 ho2
    have hhint : p.galleryOwnerId = none ∨ p.galleryOwnerId = some "" ∨
        p.galleryOwnerId = some (resolvedOwner p authorId) := by
      unfold resolvedOwner
      cases hgo : p.galleryOwnerId with
      | none => exact Or.inl rfl
      | some s =>
        by_cases hs : s = ""
        · subst hs
          exact Or.inr (Or.inl rfl)
        · refine Or.inr (Or.inr ?_)
          simp [hs]
    have hres := resolveGalleryCtx_found (ensureUserData st authorId) p.galleryId
      (resolvedOwner p authorId) g p.galleryOwnerId hgid hU1 hg1 hhint
    simp only [hres]
    have hfalse : ¬ (g.deletedAt.isSome = true) := by
      rw [halive]
      simp
    rw [if_neg hfalse]
    refine ⟨by trivial, ?_⟩
    unfold lookupPost
    rw [postsD_setPostIn, if_pos rfl, alookup_aset_self]

theorem c6_restorePost_parent_gate_witness :
    (restorePost wStD "ub" "ub" "p1" "t9").1 = Res.parentUnavailable ∧
    lookupPost (restorePost wStD "ub" "ub" "p1" "t9").2 "ub" "p1" = some wP1del ∧
    (restorePost wStE3 "ub" "ub" "p1" "t8").1 = Res.ok ∧
    lookupPost (restorePost wStE3 "ub" "ub" "p1" "t8").2 "ub" "p1"
      = some ⟨"p1", some "ua", "g1", "Day1", "", "t3", "t8", none, false⟩ := by
  have hblock := (c6_restorePost_parent_gate wStD "ub" "ub" "p1" "t9" wP1del
    (by rfl) (by rfl) (by rfl)).1 (galleriesTombstoned_pointwise (by decide))
  have hok := (c6_restorePost_parent_gate wStE3 "ub" "ub" "p1" "t8" wP1indep
    (by rfl) (by rfl) (by rfl)).2 ⟨"g1", "Trip", "", "🖼️", "#6EE7FF", false, "t2", "t7", none⟩
    (by rfl) (by rfl) (by decide) (lookupGallery_none_pointwise (by decide))
  exact ⟨hblock.1, hblock.2, hok.1, hok.2⟩

/-- C10: resolution and listing are not pure reads.  Resolving a
gallery or post with an owner/author hint for which no partition exists
creates that partition in the document, populated with the defaults;
and the listing scan rewrites every stored partition with its
normalization (filling in missing settings/galleries/posts/comments
with defaults). -/
theorem c10_queries_mutate_state (st : St) :
    (∀ gid h, gid ≠ "" → h ≠ "" → alookup h st.userData = none →
      alookup h ((resolveGalleryCtx st gid (some h)).2).userData = some defaultPartition) ∧
    (∀ pid h, pid ≠ "" → h ≠ "" → alookup h st.userData = none →
      alookup h ((resolvePostCtx st pid (some h)).2).userData = some defaultPartition) ∧
    (∀ gOwner gid incl a part, alookup a st.userData = some part →
      alookup a ((listPostsInGallery st gOwner gid incl).2).userData = some part.norm) :=
  ⟨fun gid h h1 h2 h3 => resolveGalleryCtx_creates st gid h h1 h2 h3,
   fun pid h h1 h2 h3 => resolvePostCtx_creates st pid h h1 h2 h3,
   fun gOwner gid incl a part hp =>
     listPostsScan_userData_mem gOwner gid incl (keys st.userData) st a part
       (mem_keys_of_alookup hp) hp⟩

theorem c10_queries_mutate_state_witness :
    alookup "zz" wStB.userData = none ∧
    alookup "zz" ((resolveGalleryCtx wStB "g1" (some "zz")).2).userData
      = some defaultPartition ∧
    alookup "zz" ((resolvePostCtx wStB "p1" (some "zz")).2).userData
      = some defaultPartition ∧
    alookup "ua" ((listPostsInGallery wStB "ua" "g1" true).2).userData
      = some defaultPartition := by
  have h := c10_queries_mutate_state wStB
  refine ⟨by rfl, h.1 "g1" "zz" (by decide) (by decide) (by rfl),
    h.2.1 "p1" "zz" (by decide) (by decide) (by rfl), ?_⟩
  have h3 := h.2.2 "ua" "g1" true "ua" defaultPartition (by rfl)
  rw [h3]
  rfl

theorem c1_deleteGallery_cascade_witness :
    canManage wStC "ua" "ua" = true ∧
    lookupGallery wStC "ua" "g1" = some wG1 ∧ wG1.deletedAt = none ∧
    lookupGallery (deleteGallerySoft wStC "ua" "ua" "g1" "t5").2 "ua" "g1" = some wG1del ∧
    lookupPost wStC "ub" "p1" = some wP1 ∧
    lookupPost (deleteGallerySoft wStC "ua" "ua" "g1" "t5").2 "ub" "p1" = some wP1del := by
  have h := c1_deleteGallery_cascade wStC "ua" "ua" "g1" "t5" wG1 (by rfl) (by rfl) (by rfl)
  refine ⟨by rfl, by rfl, by rfl, h.2.1, by rfl, ?_⟩
  rw [h.2.2.1 "ub" "p1" wP1 (by rfl)]
  rfl

@[simp] theorem usernameIndex_ensureUserData (st : St) (u : String) :
    (ensureUserData st u).usernameIndex = st.usernameIndex := rfl

/-- C5: every mutating operation of the repository is gated by
`canManage`: a non-admin actor operating on another user's partition
gets `permDenied` and the document is returned unchanged, for all
thirteen create/update/delete/restore/purge operations; and an admin
actor passes the permission check on any partition. -/
theorem c5_permission_gate :
    (∀ st actor target, isAdmin st actor = false → target ≠ actor →
      (∀ gid now data, createGallery st actor target gid now data = (Res.permDenied, st)) ∧
      (∀ gid now patch, updateGallery st actor target gid now patch = (Res.permDenied, st)) ∧
      (∀ gid now, deleteGallerySoft st actor target gid now = (Res.permDenied, st)) ∧
      (∀ gid now, restoreGallery st actor target gid now = (Res.permDenied, st)) ∧
      (∀ gid, purgeGallery st actor target gid = (Res.permDenied, st)) ∧
      (∀ pid now galleryId galleryOwnerId title content,
        createPost st actor target pid now galleryId galleryOwnerId title content
          = (Res.permDenied, st)) ∧
      (∀ pid now patch, updatePost st actor target pid now patch = (Res.permDenied, st)) ∧
      (∀ pid now, deletePostSoft st actor target pid now = (Res.permDenied, st)) ∧
      (∀ pid now, restorePost st actor target pid now = (Res.permDenied, st)) ∧
      (∀ pid, purgePost st actor target pid = (Res.permDenied, st)) ∧
      (∀ postId cid now text, createComment st actor target postId cid now text
        = (Res.permDenied, st)) ∧
      (∀ cid now text, updateComment st actor target cid now text = (Res.permDenied, st)) ∧
      (∀ cid now, deleteCommentSoft st actor target cid now = (Res.permDenied, st))) ∧
    (∀ st actor target, isAdmin st actor = true → canManage st actor target = true) := by
  constructor
  · intro st actor target hadm hne
    have hcm : canManage st actor target = false := by
      unfold canManage
      rw [hadm]
      simp [hne]
    refine ⟨?_, ?_, ?_, ?_, ?_, ?_, ?_, ?_, ?_, ?_, ?_, ?_, ?_⟩ <;>
      intros <;>
      simp only [createGallery, updateGallery, deleteGallerySoft, restoreGallery, purgeGallery,
        createPost, updatePost, deletePostSoft, restorePost, purgePost, createComment,
        updateComment, deleteCommentSoft, hcm, Bool.false_eq_true, if_false, ite_false]
  · intro st actor target hadm
    unfold canManage
    rw [hadm]
    rfl

theorem c5_permission_gate_witness :
    isAdmin wStG "ub" = false ∧ ("ua" : String) ≠ "ub" ∧
    deleteGallerySoft wStG "ub" "ua" "g1" "t9" = (Res.permDenied, wStG) ∧
    updatePost wStP "ua" "ub" "p1" "t9" ⟨some "x", none⟩ = (Res.permDenied, wStP) ∧
    isAdmin wStAdmin "adm" = true ∧ canManage wStAdmin "adm" "ua" = true := by
  refine ⟨by rfl, by decide, ?_, ?_, by rfl, ?_⟩
  · exact (c5_permission_gate.1 wStG "ub" "ua" (by rfl) (by decide)).2.2.1 "g1" "t9"
  · exact (c5_permission_gate.1 wStP "ua" "ub" (by rfl) (by decide)).2.2.2.2.2.2.1 "p1" "t9" ⟨some "x", none⟩
  · exact c5_permission_gate.2 wStAdmin "adm" "ua" (by rfl)

/-- C7: `login` has a single failure outcome: an unknown username and a
stored-hash mismatch both produce `fail` with the same message literal,
leaving no signal to distinguish the two cases. -/
theorem c7_login_failure_indistinguishable :
    (∀ (H : String → String → String) (st : St) (u pw : String),
      alookup u st.usernameIndex = none →
      login H st u pw = (LRes.fail loginFailMsg, st)) ∧
    (∀ (H : String → String → String) (st : St) (u pw uid : String) (user : User),
      alookup u st.usernameIndex = some uid →
      alookup uid st.users = some user →
      H pw user.saltB64 ≠ user.hashB64 →
      (login H st u pw).1 = LRes.fail loginFailMsg) := by
  constructor
  · intro H st u pw hu
    unfold login
    rw [hu]
  · intro H st u pw uid user hu huser hmis
    unfold login
    rw [hu]
    by_cases he : uid = ""
    · simp [he]
    · simp only [he, if_neg, ite_false]
      rw [huser]
      simp [hmis]

theorem c7_login_failure_indistinguishable_witness :
    alookup "nobody" wStB.usernameIndex = none ∧
    (login wH wStB "nobody" "pw" ).1 = LRes.fail loginFailMsg ∧
    alookup "alice" wStB.usernameIndex = some "ua" ∧
    alookup "ua" wStB.users = some wUserA ∧
    wH "bad" wUserA.saltB64 ≠ wUserA.hashB64 ∧
    (login wH wStB "alice" "bad").1 = LRes.fail loginFailMsg := by
  refine ⟨by rfl, ?_, by rfl, by rfl, by decide, ?_⟩
  · rw [c7_login_failure_indistinguishable.1 wH wStB "nobody" "pw" (by rfl)]
  · exact c7_login_failure_indistinguishable.2 wH wStB "alice" "bad" "ua" wUserA
      (by rfl) (by rfl) (by decide)

/-- C8: registering a fresh valid username and then verifying with the
same password succeeds and returns the id assigned at registration
(the salted iterated hash modelled as the deterministic `H`). -/
theorem c8_register_verify_roundtrip (H : String → String → String) (st : St)
    (u p salt uid now : String)
    (hvalid : isValidUsername u = true)
    (hfree : alookup u st.usernameIndex = none)
    (huid : uid ≠ "") :
    (signup H st u p salt uid now).1 = SRes.ok ∧
    (login H (signup H st u p salt uid now).2 u p).1 = LRes.ok uid := by
  unfold signup
  rw [hvalid]
  simp only [Bool.not_true, Bool.false_eq_true, if_false, ite_false]
  rw [hfree]
  simp only [truthy, Bool.false_eq_true, if_false, ite_false]
  refine ⟨by trivial, ?_⟩
  unfold login
  rw [usernameIndex_ensureUserData]
  simp only []
  rw [alookup_aset_self]
  simp only [huid, if_neg, ite_false]
  rw [users_ensureUserData]
  simp only []
  rw [alookup_aset_self]
  simp

theorem c8_register_verify_roundtrip_witness :
    isValidUsername "bob" = true ∧ alookup "bob" wStA.usernameIndex = none ∧
    (signup wH wStA "bob" "pw5678" "saltB" "ub" "t1").1 = SRes.ok ∧
    (login wH (signup wH wStA "bob" "pw5678" "saltB" "ub" "t1").2 "bob" "pw5678").1
      = LRes.ok "ub" := by
  have h := c8_register_verify_roundtrip wH wStA "bob" "pw5678" "saltB" "ub" "t1"
    (by rfl) (by rfl) (by decide)
  exact ⟨by rfl, by rfl, h.1, h.2⟩

theorem c2_restoreGallery_cascade_witness :
    canManage wStD "ua" "ua" = true ∧
    lookupGallery wStD "ua" "g1" = some wG1del ∧ wG1del.deletedAt.isSome = true ∧
    lookupGallery (restoreGallery wStD "ua" "ua" "g1" "t6").2 "ua" "g1"
      = some ⟨"g1", "Trip", "", "🖼️", "#6EE7FF", false, "t2", "t6", none⟩ ∧
    lookupPost wStD "ub" "p1" = some wP1del ∧
    lookupPost (restoreGallery wStD "ua" "ua" "g1" "t6").2 "ub" "p1"
      = some ⟨"p1", some "ua", "g1", "Day1", "", "t3", "t6", none, false⟩ := by
  have h := c2_restoreGallery_cascade wStD "ua" "ua" "g1" "t6" wG1del (by rfl) (by rfl) (by rfl)
  refine ⟨by rfl, by rfl, by rfl, h.2.1, by rfl, ?_⟩
  rw [h.2.2.1 "ub" "p1" wP1del (by rfl)]
  rfl

/-- The scenario state (alice and bob sign up, alice creates gallery
"g1", bob posts "p1" in it, alice comments, alice soft-deletes the
gallery) is reachable through the command set. -/
theorem reachable_wStD : Reachable wStD := by
  have h0 : Reachable wSt0 := Reachable.init
  have hA : Reachable wStA :=
    Reachable.step wSt0 (Op.signup wH "alice" "pw1234" "saltA" "ua" "t0") h0 trivial
  have hB : Reachable wStB :=
    Reachable.step wStA (Op.signup wH "bob" "pw5678" "saltB" "ub" "t1") hA trivial
  have hG : Reachable wStG :=
    Reachable.step wStB (Op.createGallery "ua" "ua" "g1" "t2" ⟨some "Trip", none, none, none, false⟩)
      hB (lookupGallery_none_all (by decide))
  have hP : Reachable wStP :=
    Reachable.step wStG (Op.createPost "ub" "ub" "p1" "t3" "g1" (some "ua") (some "Day1") none)
      hG (lookupPost_none_all (by decide))
  have hC : Reachable wStC :=
    Reachable.step wStP (Op.createComment "ua" "ua" "p1" "c1" "t4" (some "nice"))
      hP (lookupComment_none_all (by decide))
  exact Reachable.step wStC (Op.deleteGallery "ua" "ua" "g1" "t5") hC trivial

/-- C3: in every state reachable through the command set, a stored post
with `deletedByGallery = true` is itself tombstoned (`deletedAt` set);
and no command with a fresh generated id other than the gallery-restore
cascade (`restoreGallery`) ever changes a stored post's
`deletedByGallery` from `true` to `false` — in particular a direct
`restorePost` never does. -/
theorem c3_flag_invariant (st : St) (h : Reachable st) :
    (∀ aid pid p, lookupPost st aid pid = some p → p.deletedByGallery = true →
      p.deletedAt.isSome = true) ∧
    (∀ op : Op, op.Fresh st → op.isRestoreGalleryCascade = false →
      FlagPres st (op.apply st)) := by
  have hInv := inv_reachable st h
  exact ⟨fun aid pid p hp hf => (hInv.1 aid pid p hp hf).1,
    fun op hFr hnr => flagPres_apply st op hInv hFr hnr⟩

theorem c3_flag_invariant_witness :
    Reachable wStD ∧
      ((∀ aid pid p, lookupPost wStD aid pid = some p → p.deletedByGallery = true →
        p.deletedAt.isSome = true) ∧
      (∀ op : Op, op.Fresh wStD → op.isRestoreGalleryCascade = false →
        FlagPres wStD (op.apply wStD))) :=
  ⟨reachable_wStD, c3_flag_invariant wStD reachable_wStD⟩

end Gal
